import Mathlib

/-!
Verification development for the reQ query-execution engine
(`apps/api`: NL2Operator, query planner, MCP orchestrator, security bridge).

The Python sources are shallowly embedded: pure functions become Lean
functions, in-place mutation becomes explicit state passing, Python floats
become exact rationals (`ℚ`), fallible code returns `Except`.  External
collaborators (spaCy NER, the regex engine, Redis, MCP executors, sha256)
are passed in as oracle parameters, so every theorem quantifies over their
behaviour.  Data-model classes from `models/operators.py` /
`models/responses.py` (not part of the analysed tree) are modelled from the
specification, as marked in their doc comments.
-/

/-- A Python runtime value, as far as the embedded code inspects one:
`None`, booleans, numbers (modelled exactly as rationals), strings, lists
and string-keyed dicts. -/
inductive PyVal where
  | none : PyVal
  | bool (b : Bool) : PyVal
  | num (q : ℚ) : PyVal
  | str (s : String) : PyVal
  | list (xs : List PyVal) : PyVal
  | dict (kvs : List (String × PyVal)) : PyVal

/-- Python truthiness (`bool(v)`) for the embedded values. -/
def pyTruthy : PyVal → Bool
  | .none => false
  | .bool b => b
  | .num q => q != 0
  | .str s => s != ""
  | .list xs => !xs.isEmpty
  | .dict kvs => !kvs.isEmpty

/-- `d.get(k)` on a dict represented as an insertion-ordered
association list: the value of the first (unique) binding of `k`. -/
def dictGet (kvs : List (String × PyVal)) (k : String) : Option PyVal :=
  (kvs.find? (fun kv => kv.1 == k)).map (·.2)

/-- `d.get(k, default)`. -/
def dictGetD (kvs : List (String × PyVal)) (k : String) (v : PyVal) : PyVal :=
  (dictGet kvs k).getD v

/-- `d[k] = v` on an insertion-ordered association list: overwrite the
existing binding in place, else append at the end (Python dict update
semantics). -/
def dictSet (kvs : List (String × PyVal)) (k : String) (v : PyVal) :
    List (String × PyVal) :=
  match kvs with
  | [] => [(k, v)]
  | (k1, v1) :: rest =>
    if k1 = k then (k1, v) :: rest else (k1, v1) :: dictSet rest k v

/-- Insert a key/value pair into a key-sorted association list
(used for `json.dumps(..., sort_keys=True)` canonicalisation). -/
def kvInsert (kv : String × PyVal) : List (String × PyVal) → List (String × PyVal)
  | [] => [kv]
  | kv1 :: rest =>
    if kv.1 ≤ kv1.1 then kv :: kv1 :: rest else kv1 :: kvInsert kv rest

/-- Sort an association list by key. -/
def kvSort : List (String × PyVal) → List (String × PyVal)
  | [] => []
  | kv :: rest => kvInsert kv (kvSort rest)

mutual
/-- Deterministic JSON-style rendering of a `PyVal` (stand-in for
`json.dumps`; nested dicts are rendered in insertion order, the caller
sorts the top level, which is all the cache-key code relies on). -/
def pyJson : PyVal → String
  | .none => "null"
  | .bool b => if b then "true" else "false"
  | .num q => toString q
  | .str s => "\"" ++ s ++ "\""
  | .list xs => "[" ++ String.intercalate ", " (pyJsonList xs) ++ "]"
  | .dict kvs => "\x7b" ++ String.intercalate ", " (pyJsonKvs kvs) ++ "\x7d"

/-- Render each element of a list of values. -/
def pyJsonList : List PyVal → List String
  | [] => []
  | x :: xs => pyJson x :: pyJsonList xs

/-- Render each binding of a dict. -/
def pyJsonKvs : List (String × PyVal) → List String
  | [] => []
  | (k, v) :: rest => ("\"" ++ k ++ "\": " ++ pyJson v) :: pyJsonKvs rest
end

/-- The closed 14-value operator-kind enum (`models/operators.py`,
modelled from the spec, §3; `value` gives the stable wire string). -/
inductive OperatorType where
  | spatial_filter
  | temporal_filter
  | parameter_filter
  | qc_filter
  | float_filter
  | aggregate
  | group_by
  | compute_gradient
  | compute_mld
  | compute_anomaly
  | compute_stats
  | semantic_search
  | join
  | visualize
deriving DecidableEq, Repr

/-- The stable string identifier of an operator kind (spec §6). -/
def OperatorType.value : OperatorType → String
  | .spatial_filter => "spatial_filter"
  | .temporal_filter => "temporal_filter"
  | .parameter_filter => "parameter_filter"
  | .qc_filter => "qc_filter"
  | .float_filter => "float_filter"
  | .aggregate => "aggregate"
  | .group_by => "group_by"
  | .compute_gradient => "compute_gradient"
  | .compute_mld => "compute_mld"
  | .compute_anomaly => "compute_anomaly"
  | .compute_stats => "compute_stats"
  | .semantic_search => "semantic_search"
  | .join => "join"
  | .visualize => "visualize"

/-- Modelled from the spec: `Operator` record of `models/operators.py`
(§3): id, kind, string-keyed params, mutable estimated cost (ms),
target executor name. -/
structure Operator where
  id : String
  type : OperatorType
  params : List (String × PyVal)
  estimated_cost : ℚ
  target_server : String

/-- Modelled from the spec: dependency edge `Edge{from_id, to_id}` (§3). -/
structure Edge where
  from_id : String
  to_id : String
deriving DecidableEq, Repr

/-- Modelled from the spec: `SemanticOperatorDAG` (§3), restricted to the
fields the planner / orchestrator / bridge read (operators and edges). -/
structure SemanticOperatorDAG where
  operators : List Operator
  edges : List Edge

/-- Modelled from the spec: `dag.get_operator(op_id)` — the operator with
the given id, if any. -/
def SemanticOperatorDAG.get_operator (dag : SemanticOperatorDAG) (opId : String) :
    Option Operator :=
  dag.operators.find? (fun op => op.id == opId)

/-- Modelled from the spec: `dag.get_dependencies(op_id)` — the ids an
operator depends on, i.e. the sources of the dependency edges into it
(spec §3: `ExecutionStep.depends_on` holds operator ids). -/
def SemanticOperatorDAG.get_dependencies (dag : SemanticOperatorDAG) (opId : String) :
    List String :=
  (dag.edges.filter (fun e => e.to_id == opId)).map (·.from_id)

/-- Fatal planner errors (spec §7): a cycle or a dangling edge. -/
inductive DAGError where
  | cycle
  | danglingEdge
deriving DecidableEq, Repr

/-- One round of Kahn's algorithm: the first remaining id all of whose
incoming edges come from already-emitted nodes. -/
def kahnReady (edges : List Edge) (remaining : List String) : Option String :=
  remaining.find? (fun r =>
    edges.all (fun e => !(e.to_id == r) || !(remaining.contains e.from_id)))

/-- Fuelled main loop of Kahn's algorithm. -/
def kahnAux (edges : List Edge) : Nat → List String → List String →
    Except DAGError (List String)
  | 0, remaining, acc =>
    if remaining.isEmpty then .ok acc else .error .cycle
  | fuel + 1, remaining, acc =>
    if remaining.isEmpty then .ok acc
    else
      match kahnReady edges remaining with
      | some r => kahnAux edges fuel (remaining.erase r) (acc ++ [r])
      | none => .error .cycle

/-- Modelled from the spec: `dag.topological_sort()` (§4.4: Kahn's
algorithm over the DAG; a cycle or dangling edge is a fatal `DAGError`). -/
def SemanticOperatorDAG.topological_sort (dag : SemanticOperatorDAG) :
    Except DAGError (List String) :=
  let ids := dag.operators.map (·.id)
  if dag.edges.all (fun e => ids.contains e.from_id && ids.contains e.to_id) then
    kahnAux dag.edges ids.length ids []
  else .error .danglingEdge

/-- Errors of the embedded Python runtime (raised `TypeError` /
`IndexError`; the precise message is not modelled). -/
inductive PyErr where
  | typeError
  | indexError
deriving DecidableEq, Repr

/-- `xs[i]` on a Python list: `IndexError` when out of range (indexing a
non-list raises as well, folded into `typeError`). -/
def pyIndex (v : PyVal) (i : Nat) : Except PyErr PyVal :=
  match v with
  | .list xs => match xs.get? i with
    | some x => .ok x
    | Option.none => .error .indexError
  | _ => .error .typeError

/-- Read a value as a Python number (bools are ints in Python); anything
else used in arithmetic raises `TypeError`. -/
def pyNum (v : PyVal) : Except PyErr ℚ :=
  match v with
  | .num q => .ok q
  | .bool b => .ok (if b then 1 else 0)
  | _ => .error .typeError

/-- `int(q)` — truncation toward zero. -/
def pyInt (q : ℚ) : Int := q.num / (q.den : Int)

/-- `QueryPlanner.base_costs` (query_planner.py:45-60), in ms. -/
def QueryPlanner.base_costs : OperatorType → ℚ
  | .spatial_filter => 50
  | .temporal_filter => 30
  | .parameter_filter => 20
  | .qc_filter => 15
  | .float_filter => 25
  | .aggregate => 100
  | .group_by => 80
  | .compute_gradient => 150
  | .compute_mld => 200
  | .compute_anomaly => 180
  | .compute_stats => 100
  | .semantic_search => 300
  | .join => 150
  | .visualize => 250

/-- `QueryPlanner.server_assignments` (query_planner.py:63-78). -/
def QueryPlanner.server_assignments : OperatorType → String
  | .spatial_filter => "structured"
  | .temporal_filter => "structured"
  | .parameter_filter => "structured"
  | .qc_filter => "structured"
  | .float_filter => "structured"
  | .aggregate => "structured"
  | .group_by => "structured"
  | .compute_gradient => "profile"
  | .compute_mld => "profile"
  | .compute_anomaly => "profile"
  | .compute_stats => "profile"
  | .semantic_search => "semantic"
  | .join => "structured"
  | .visualize => "visualization"

/-- `QueryPlanner._generate_cache_key` (query_planner.py:309-319):
`"op:" + sha256(type value + ":" + sorted-key JSON of params)[:16]`.
The sha256-hex-truncation step is the oracle parameter `hash`. -/
def QueryPlanner.generate_cache_key (hash : String → String) (op : Operator) : String :=
  "op:" ++ hash (op.type.value ++ ":" ++ pyJson (.dict (kvSort op.params)))

/-- The selectivity-adjusted (pre-cache-discount) cost of one operator
(query_planner.py:149-165): spatial filters scale with bbox area / 1000,
temporal filters take a fixed ×1.5; malformed bbox params raise. -/
def QueryPlanner.selAdjusted (op : Operator) : Except PyErr ℚ := do
  let base := QueryPlanner.base_costs op.type
  match op.type with
  | .spatial_filter =>
    let bbox := dictGetD op.params "bbox" (.list [])
    if pyTruthy bbox then
      let b0 ← pyNum (← pyIndex bbox 0)
      let b1 ← pyNum (← pyIndex bbox 1)
      let b2 ← pyNum (← pyIndex bbox 2)
      let b3 ← pyNum (← pyIndex bbox 3)
      let area := (b2 - b0) * (b3 - b1)
      pure (base * (1 + area / 1000))
    else
      pure base
  | .temporal_filter => pure (base * 1.5)
  | _ => pure base

/-- `CostEstimate` (query_planner.py:23-29). -/
structure CostEstimate where
  base_cost : ℚ
  adjusted_cost : ℚ
  cache_available : Bool
  historical_cost : Option ℚ
deriving DecidableEq, Repr

/-- Cost estimation of one operator (the body of the loop of
`QueryPlanner._estimate_costs`, query_planner.py:148-191): selectivity
adjustment, then ×0.05 cache discount when the operator's cache key has
a cached value; `self.memory` is `None` in the analysed code, so the
historical blend never runs.  Returns the estimate together with the
operator after its in-place `estimated_cost` overwrite. -/
def QueryPlanner.estimate_one (hash : String → String) (cache : String → Option PyVal)
    (op : Operator) : Except PyErr (CostEstimate × Operator) := do
  let base := QueryPlanner.base_costs op.type
  let adjusted ← QueryPlanner.selAdjusted op
  let cacheKey := QueryPlanner.generate_cache_key hash op
  let cacheAvailable := (cache cacheKey).isSome
  let adjusted := if cacheAvailable then adjusted * 0.05 else adjusted
  pure ({ base_cost := base, adjusted_cost := adjusted,
          cache_available := cacheAvailable, historical_cost := Option.none },
        { op with estimated_cost := adjusted })

/-- `QueryPlanner._estimate_costs` (query_planner.py:141-193) as explicit
state passing: the returned operator list is the DAG's operator list after
the in-place cost overwrites (on an exception, operators already processed
keep their new costs, the rest are untouched). -/
def QueryPlanner.estimate_costs (hash : String → String) (cache : String → Option PyVal) :
    List Operator → Option PyErr × List Operator × List (String × CostEstimate)
  | [] => (Option.none, [], [])
  | op :: rest =>
    match QueryPlanner.estimate_one hash cache op with
    | .ok (est, opUpdated) =>
      let (err, restOps, ests) := QueryPlanner.estimate_costs hash cache rest
      (err, opUpdated :: restOps, (op.id, est) :: ests)
    | .error e => (some e, op :: rest, [])

/-- The `can_parallel` inner check of
`QueryPlanner._identify_parallel_groups` (query_planner.py:216-221):
the candidate shares no direct dependency edge with any member of the
current group. -/
def canParallel (dag : SemanticOperatorDAG) (order : List String)
    (current : List Nat) (opId : String) (deps : List String) : Bool :=
  current.all (fun gi =>
    match order.get? gi with
    | some gid => !(deps.contains gid) && !((dag.get_dependencies gid).contains opId)
    | Option.none => true)

/-- Loop of `QueryPlanner._identify_parallel_groups`
(query_planner.py:208-236), one iteration per position `i` of the
topological order. -/
def ipgAux (dag : SemanticOperatorDAG) (order : List String) :
    List String → Nat → List String → List (List Nat) → List Nat → List (List Nat)
  | [], _, _, groups, current =>
    if current.isEmpty then groups else groups ++ [current]
  | opId :: rest, i, completed, groups, current =>
    let deps := dag.get_dependencies opId
    if deps.all (fun d => completed.contains d) then
      if current.isEmpty then
        ipgAux dag order rest (i + 1) (opId :: completed) groups [i]
      else if canParallel dag order current opId deps then
        ipgAux dag order rest (i + 1) (opId :: completed) groups (current ++ [i])
      else
        ipgAux dag order rest (i + 1) (opId :: completed) (groups ++ [current]) [i]
    else
      if current.isEmpty then
        ipgAux dag order rest (i + 1) (opId :: completed) groups [i]
      else
        ipgAux dag order rest (i + 1) (opId :: completed) (groups ++ [current]) [i]

/-- `QueryPlanner._identify_parallel_groups` (query_planner.py:195-238). -/
def QueryPlanner.identify_parallel_groups (dag : SemanticOperatorDAG)
    (order : List String) : List (List Nat) :=
  ipgAux dag order order 0 [] [] []

/-- `ExecutionStep` (`models/operators.py`, modelled from the spec §3,
with the field names used by query_planner.py:258-264). -/
structure ExecutionStep where
  operator : Operator
  mcp_server : String
  cache_key : Option String
  timeout : Int
  depends_on : List String

/-- `QueryPlanner._create_step` (query_planner.py:240-264): server
assignment, cache key, `timeout = max(1000, int(3 × estimated_cost))`,
dependencies from the DAG. -/
def QueryPlanner.create_step (hash : String → String) (dag : SemanticOperatorDAG)
    (op : Operator) : ExecutionStep :=
  { operator := op,
    mcp_server := QueryPlanner.server_assignments op.type,
    cache_key := some (QueryPlanner.generate_cache_key hash op),
    timeout := max 1000 (pyInt (op.estimated_cost * 3)),
    depends_on := dag.get_dependencies op.id }

/-- Total estimated cost of a step list (`sum(s.operator.estimated_cost)`). -/
def totalCost (steps : List ExecutionStep) : ℚ :=
  (steps.map (·.operator.estimated_cost)).sum

/-- Deadline strategy 1 (query_planner.py:280-282): drop VISUALIZE steps
when the entry cost exceeds 1.5 × deadline. -/
def QueryPlanner.strategy1 (deadline : ℚ) (steps : List ExecutionStep) :
    List ExecutionStep :=
  if totalCost steps > deadline * 1.5 then
    steps.filter (fun s => !(s.operator.type == .visualize))
  else steps

/-- Deadline strategy 2 (query_planner.py:284-292): set `fast_mode` and
halve the cost on every compute operator — applied with no cost re-check. -/
def QueryPlanner.strategy2 (steps : List ExecutionStep) : List ExecutionStep :=
  steps.map (fun s =>
    if s.operator.type == .compute_gradient || s.operator.type == .compute_mld ||
       s.operator.type == .compute_anomaly then
      { s with operator :=
        { s.operator with
          params := dictSet s.operator.params "fast_mode" (.bool true),
          estimated_cost := s.operator.estimated_cost * 0.5 } }
    else s)

/-- Deadline strategy 3 (query_planner.py:294-303): if the recomputed cost
still exceeds the deadline, set `sample_rate = 0.5` and ×0.6 the cost on
spatial/temporal filters. -/
def QueryPlanner.strategy3 (deadline : ℚ) (steps : List ExecutionStep) :
    List ExecutionStep :=
  if totalCost steps > deadline then
    steps.map (fun s =>
      if s.operator.type == .spatial_filter || s.operator.type == .temporal_filter then
        { s with operator :=
          { s.operator with
            params := dictSet s.operator.params "sample_rate" (.num 0.5),
            estimated_cost := s.operator.estimated_cost * 0.6 } }
      else s)
  else steps

/-- `QueryPlanner._optimize_for_deadline` (query_planner.py:266-307). -/
def QueryPlanner.optimize_for_deadline (steps : List ExecutionStep) (deadline : ℚ) :
    List ExecutionStep :=
  if totalCost steps ≤ deadline then steps
  else QueryPlanner.strategy3 deadline
        (QueryPlanner.strategy2 (QueryPlanner.strategy1 deadline steps))

/-- The cache-strategy dict built by
`QueryPlanner._generate_cache_strategy` (query_planner.py:345-349). -/
structure CacheStrategy where
  cacheable_steps : List Nat
  ttl_policy : List (String × Nat)
  enable_cache : Bool
deriving DecidableEq, Repr

/-- `ttl_policy[key] = ttl` (Python dict assignment on string keys). -/
def ttlSet (kvs : List (String × Nat)) (k : String) (v : Nat) : List (String × Nat) :=
  match kvs with
  | [] => [(k, v)]
  | (k1, v1) :: rest =>
    if k1 = k then (k1, v) :: rest else (k1, v1) :: ttlSet rest k v

/-- Loop of `QueryPlanner._generate_cache_strategy`
(query_planner.py:329-343), indexed from `i`. -/
def cacheStrategyAux : List ExecutionStep → Nat → List Nat → List (String × Nat) →
    List Nat × List (String × Nat)
  | [], _, cacheable, ttl => (cacheable, ttl)
  | step :: rest, i, cacheable, ttl =>
    match step.cache_key with
    | some key =>
      let ttlValue : Nat :=
        if step.operator.type == .spatial_filter ||
           step.operator.type == .temporal_filter then 3600
        else if step.operator.type == .visualize then 300
        else 1800
      cacheStrategyAux rest (i + 1) (cacheable ++ [i]) (ttlSet ttl key ttlValue)
    | Option.none => cacheStrategyAux rest (i + 1) cacheable ttl

/-- `QueryPlanner._generate_cache_strategy` (query_planner.py:321-349). -/
def QueryPlanner.generate_cache_strategy (steps : List ExecutionStep) : CacheStrategy :=
  let (cacheable, ttl) := cacheStrategyAux steps 0 [] []
  { cacheable_steps := cacheable, ttl_policy := ttl, enable_cache := true }

/-- Modelled from the spec: `ExecutionPlan` (§3): steps in topological
order, total estimated cost, cache strategy, ordered parallel groups of
step indices, optional deadline, plan id. -/
structure ExecutionPlan where
  steps : List ExecutionStep
  estimated_cost : ℚ
  cache_strategy : CacheStrategy
  parallel_groups : List (List Nat)
  deadline_ms : Option ℚ
  plan_id : String

/-- Errors that abort `QueryPlanner.plan`: a raised Python error during
cost estimation, or a fatal `DAGError` from the topological sort. -/
inductive PlanErr where
  | py (e : PyErr)
  | dag (e : DAGError)
deriving DecidableEq, Repr

/-- The operator list of the DAG after `_optimize_for_deadline` has
mutated step operators in place: each operator is replaced by the
(possibly `fast_mode` / `sample_rate`) version held by the surviving step
with the same id (steps alias the DAG's operator objects in Python). -/
def applyStepMutations (ops : List Operator) (steps : List ExecutionStep) :
    List Operator :=
  ops.map (fun op =>
    match steps.find? (fun s => s.operator.id == op.id) with
    | some s => s.operator
    | Option.none => op)

/-- `QueryPlanner.plan` (query_planner.py:82-139), with the in-place DAG
mutation made explicit: returns the outcome and the post-call state of the
input DAG.  `hash` and `cache` are the sha256 and Redis oracles; the
`plan_id` uuid is modelled by a constant. -/
def QueryPlanner.plan (hash : String → String) (cache : String → Option PyVal)
    (dag : SemanticOperatorDAG) (deadline_ms : Option ℚ) :
    Except PlanErr ExecutionPlan × SemanticOperatorDAG :=
  let (err, opsUpdated, _ests) := QueryPlanner.estimate_costs hash cache dag.operators
  let dagUpdated : SemanticOperatorDAG := { dag with operators := opsUpdated }
  match err with
  | some e => (.error (.py e), dagUpdated)
  | Option.none =>
    match dagUpdated.topological_sort with
    | .error e => (.error (.dag e), dagUpdated)
    | .ok order =>
      let groups := QueryPlanner.identify_parallel_groups dagUpdated order
      let steps := order.filterMap (fun opId =>
        (dagUpdated.get_operator opId).map (QueryPlanner.create_step hash dagUpdated))
      let total := totalCost steps
      let deadlineHit : Bool :=
        match deadline_ms with
        | some d => (d != 0) && (total > d)
        | Option.none => false
      let steps2 :=
        match deadline_ms with
        | some d => if (d != 0) && (total > d) then
            QueryPlanner.optimize_for_deadline steps d
          else steps
        | Option.none => steps
      let dagOut :=
        if deadlineHit then
          { dagUpdated with operators := applyStepMutations dagUpdated.operators steps2 }
        else dagUpdated
      let total2 := totalCost steps2
      (.ok { steps := steps2,
             estimated_cost := total2,
             cache_strategy := QueryPlanner.generate_cache_strategy steps2,
             parallel_groups := groups,
             deadline_ms := deadline_ms,
             plan_id := "plan" },
       dagOut)

/-- `v.get(k, default)` when `v` is a dict (Python `.get`; the recorded
step results this is applied to are always dicts). -/
def pyDictGetD (v : PyVal) (k : String) (d : PyVal) : PyVal :=
  match v with
  | .dict kvs => dictGetD kvs k d
  | _ => d

/-- `MCPRequest` (mcp/base.py) as built by the orchestrator. -/
structure MCPRequest where
  operation : String
  params : List (String × PyVal)
  timeout : Int

/-- `MCPResponse` (mcp/base.py): success flag, data payload, optional
error dict, optional metadata dict. -/
structure MCPResponse where
  success : Bool
  data : PyVal
  error : Option (List (String × PyVal))
  metadata : Option (List (String × PyVal))

/-- Behaviour of one executor call, as seen through `asyncio.wait_for`:
a response, an exception with a message, or a timeout. -/
inductive ExecOutcome where
  | respond (resp : MCPResponse)
  | raised (msg : String)
  | timedOut

/-- The six registered server names (orchestrator.py:36-43). -/
def MCPOrchestrator.servers : List String :=
  ["structured", "metadata", "profile", "semantic", "cache", "visualization"]

/-- Request-param construction of `MCPOrchestrator._execute_step`
(orchestrator.py:157-162): the operator's params, overwritten per
dependency in `depends_on` order — a dependency with a recorded result
stores its `data` under the single `input_data` key, one with no recorded
result (a failed step) contributes nothing. -/
def buildStepParams (prev : List (String × PyVal)) (step : ExecutionStep) :
    List (String × PyVal) :=
  step.depends_on.foldl (fun params depId =>
    match dictGet prev depId with
    | some r => dictSet params "input_data" (pyDictGetD r "data" .none)
    | Option.none => params) step.operator.params

/-- `MCPOrchestrator._execute_step` (orchestrator.py:145-191), with the
executors as the oracle `executor`; an unknown server name, an executor
exception, an unsuccessful response and a timeout all surface as a raised
exception (`.error` with its message), which the caller's
`asyncio.gather(..., return_exceptions=True)` turns into a per-step error. -/
def MCPOrchestrator.execute_step (executor : String → MCPRequest → ExecOutcome)
    (prev : List (String × PyVal)) (step : ExecutionStep) : Except String PyVal :=
  if MCPOrchestrator.servers.contains step.mcp_server then
    let params := buildStepParams prev step
    let request : MCPRequest :=
      { operation := step.operator.type.value, params := params, timeout := step.timeout }
    match executor step.mcp_server request with
    | .raised msg => .error msg
    | .timedOut => .error ("Step timed out after " ++ toString step.timeout ++ "ms")
    | .respond resp =>
      if resp.success then
        .ok (.dict
          [("data", resp.data),
           ("rows_count",
             match resp.metadata with
             | some m => dictGetD m "rows_count" (.num 0)
             | Option.none => .num 0),
           ("from_cache",
             match resp.metadata with
             | some m => dictGetD m "from_cache" (.bool false)
             | Option.none => .bool false)])
      else
        .error
          (match resp.error with
           | some e =>
             match dictGet e "message" with
             | some (.str s) => s
             | _ => "Unknown error"
           | Option.none => "Unknown error")
  else .error ("Unknown MCP server: " ++ step.mcp_server)

/-- One per-step error entry `{"step": ..., "error": ...}`
(orchestrator.py:82-85). -/
structure ErrorEntry where
  step : String
  error : String
deriving DecidableEq, Repr

/-- Modelled from the spec: `ExecutionResult` (`models/responses.py`, §3).
Wall-clock `execution_time_ms` is not modelled and fixed at 0. -/
structure ExecutionResult where
  success : Bool
  data : PyVal
  confidence : ℚ
  cache_hits : Nat
  rows_processed : ℚ
  execution_time_ms : ℚ
  errors : Option (List ErrorEntry)

/-- Mutable per-request state of `MCPOrchestrator.execute`
(orchestrator.py:59-62). -/
structure OrchState where
  step_results : List (String × PyVal)
  cache_hits : Nat
  total_rows : ℚ
  errors : List ErrorEntry

/-- Result-processing loop of one parallel group (orchestrator.py:78-93):
an exception becomes an error entry, a result is recorded under the step's
operator id and its cache/row counters are accumulated (a non-numeric
truthy `rows_count` raises `TypeError` in the `+=`). -/
def processGroup (st : OrchState) :
    List (ExecutionStep × Except String PyVal) → Except PyErr OrchState
  | [] => .ok st
  | (step, outcome) :: rest =>
    match outcome with
    | .error msg =>
      processGroup { st with errors := st.errors ++ [⟨step.operator.id, msg⟩] } rest
    | .ok result =>
      let st := { st with step_results := dictSet st.step_results step.operator.id result }
      let st := if pyTruthy (pyDictGetD result "from_cache" .none) then
          { st with cache_hits := st.cache_hits + 1 }
        else st
      let rows := pyDictGetD result "rows_count" .none
      if pyTruthy rows then
        match pyNum rows with
        | .ok r => processGroup { st with total_rows := st.total_rows + r } rest
        | .error e => .error e
      else processGroup st rest

/-- `[plan.steps[i] for i in group_indices]` (orchestrator.py:67):
`IndexError` on an out-of-range step index. -/
def lookupSteps (steps : List ExecutionStep) : List Nat → Except PyErr (List ExecutionStep)
  | [] => .ok []
  | i :: rest =>
    match steps.get? i with
    | some s =>
      match lookupSteps steps rest with
      | .ok ss => .ok (s :: ss)
      | .error e => .error e
    | Option.none => .error .indexError

/-- The group loop of `MCPOrchestrator.execute` (orchestrator.py:65-93):
groups strictly in order; within a group every step is dispatched against
the snapshot of results taken at the group barrier.  Also returns the
dispatch log (operator ids in dispatch order). -/
def runGroups (executor : String → MCPRequest → ExecOutcome) (steps : List ExecutionStep) :
    List (List Nat) → OrchState → List String → Except PyErr (OrchState × List String)
  | [], st, dispatched => .ok (st, dispatched)
  | g :: rest, st, dispatched =>
    match lookupSteps steps g with
    | .error e => .error e
    | .ok groupSteps =>
      match processGroup st (groupSteps.map (fun s =>
          (s, MCPOrchestrator.execute_step executor st.step_results s))) with
      | .error e => .error e
      | .ok stNext =>
        runGroups executor steps rest stNext
          (dispatched ++ groupSteps.map (·.operator.id))

/-- The primary-payload scan of `MCPOrchestrator.execute`
(orchestrator.py:104-115): the last step output resembling a profile
collection (a non-empty list, a dict with a `profiles` key, or a dict with
a truthy `data` value). -/
def scanProfilesData (results : List (String × PyVal)) : List ExecutionStep → PyVal → PyVal
  | [], acc => acc
  | step :: rest, acc =>
    let stepData := pyDictGetD (dictGetD results step.operator.id (.dict [])) "data" .none
    let acc :=
      if pyTruthy stepData then
        match stepData with
        | .list xs => if xs.length > 0 then PyVal.list xs else acc
        | .dict kvs =>
          if (dictGet kvs "profiles").isSome then dictGetD kvs "profiles" .none
          else if pyTruthy (dictGetD kvs "data" .none) then dictGetD kvs "data" .none
          else acc
        | _ => acc
      else acc
    scanProfilesData results rest acc

/-- Final-data aggregation of `MCPOrchestrator.execute`
(orchestrator.py:98-130): prefer profile-like data, then overlay the
terminal step's output when it is a dict. -/
def aggregateFinalData (steps : List ExecutionStep) (results : List (String × PyVal)) :
    PyVal :=
  match steps.getLast? with
  | Option.none => .none
  | some lastStep =>
    let profiles := scanProfilesData results steps .none
    let lastData := pyDictGetD (dictGetD results lastStep.operator.id (.dict [])) "data" .none
    if pyTruthy profiles then
      let count : ℚ := match profiles with
        | .list xs => (xs.length : ℚ)
        | _ => 0
      let base := [("profiles", profiles), ("count", PyVal.num count)]
      match lastData with
      | .dict kvs => .dict (kvs.foldl (fun acc kv => dictSet acc kv.1 kv.2) base)
      | _ => .dict base
    else lastData

/-- `MCPOrchestrator.execute` (orchestrator.py:45-143): runs the plan's
parallel groups in order against the executor oracle, then aggregates an
`ExecutionResult`; also returns the dispatch log of operator ids. -/
def MCPOrchestrator.execute (executor : String → MCPRequest → ExecOutcome)
    (plan : ExecutionPlan) : Except PyErr (ExecutionResult × List String) :=
  match runGroups executor plan.steps plan.parallel_groups
      { step_results := [], cache_hits := 0, total_rows := 0, errors := [] } [] with
  | .error e => .error e
  | .ok (st, dispatched) =>
    .ok ({ success := st.errors.isEmpty,
           data := aggregateFinalData plan.steps st.step_results,
           confidence :=
             if plan.steps.isEmpty then 0
             else 1 - (st.errors.length : ℚ) / (plan.steps.length : ℚ),
           cache_hits := st.cache_hits,
           rows_processed := st.total_rows,
           execution_time_ms := 0,
           errors := if st.errors.isEmpty then Option.none else some st.errors },
         dispatched)

/-- Threat classification levels (mcp_bridge.py:22-26). -/
inductive ThreatLevel where
  | safe
  | suspicious
  | blocked
deriving DecidableEq, Repr

/-- `SecurityValidation` (mcp_bridge.py:29-37); wall-clock `latency_ms`
is not modelled and fixed at 0. -/
structure SecurityValidation where
  passed : Bool
  threat_level : ThreatLevel
  stage_reached : Nat
  confidence : ℚ
  issues : List String
  latency_ms : ℚ
deriving DecidableEq, Repr

/-- `MCPBridge.neural_enabled` (mcp_bridge.py:98): the neural model is
never loaded in the analysed code. -/
def MCPBridge.neural_enabled : Bool := false

/-- `MCPBridge.llm_enabled` (mcp_bridge.py:103). -/
def MCPBridge.llm_enabled : Bool := true

/-- Number of positional parameters `rate_limit_check` accepts
(core/redis.py:109: `rate_limit_check(user_id, limit=None)`). -/
def rateLimitCheckParamCount : Nat := 2

/-- Number of positional arguments the bridge passes to it
(mcp_bridge.py:135: `rate_limit_check(f"user:{user_id}", 100, 60)`). -/
def bridgeRateLimitArgCount : Nat := 3

/-- Python truthiness of the `(allowed, remaining)` tuple
`rate_limit_check` returns: a non-empty tuple is always truthy, whatever
it contains. -/
def tupleTruthy (_t : Bool × Int) : Bool := true

/-- Stages 1-3 of `MCPBridge.validate` after the rate-limit gate
(mcp_bridge.py:146-197).  The stage bodies (regex families, the heuristic
fallback, the LLM stub) are oracle parameters: each returns a verdict, a
score (stage 1 has none) and an issue list, and the pipeline wiring —
gating, issue accumulation, short-circuiting, the final `passed` /
`stage_reached` fields — is embedded from the source. -/
def MCPBridge.validateStages
    (stage1 : String → ThreatLevel × List String)
    (stage2 : String → ThreatLevel × ℚ × List String)
    (stage3 : String → Option SemanticOperatorDAG → ThreatLevel × ℚ × List String)
    (query : String) (dag : Option SemanticOperatorDAG) : SecurityValidation :=
  let (s1, i1) := stage1 query
  let issues := i1
  if s1 == .blocked then
    { passed := false, threat_level := .blocked, stage_reached := 1,
      confidence := 1, issues := issues, latency_ms := 0 }
  else if s1 == .suspicious || MCPBridge.neural_enabled then
    let (s2, score2, i2) := stage2 query
    let issues := issues ++ i2
    if s2 == .blocked then
      { passed := false, threat_level := .blocked, stage_reached := 2,
        confidence := score2, issues := issues, latency_ms := 0 }
    else if s2 == .suspicious && MCPBridge.llm_enabled then
      let (s3, score3, i3) := stage3 query dag
      let issues := issues ++ i3
      { passed := s3 == .safe, threat_level := s3, stage_reached := 3,
        confidence := score3, issues := issues, latency_ms := 0 }
    else
      { passed := true, threat_level := .safe,
        stage_reached := if s1 == .safe then 1 else 2,
        confidence := 1, issues := issues, latency_ms := 0 }
  else
    { passed := true, threat_level := .safe,
      stage_reached := if s1 == .safe then 1 else 2,
      confidence := 1, issues := issues, latency_ms := 0 }

/-- `MCPBridge.validate` (mcp_bridge.py:113-197).  When a `user_id` is
supplied, the bridge calls `rate_limit_check(f"user:{user_id}", 100, 60)`
— three positional arguments against a two-parameter function — so the
embedded call site checks the arity the way the Python calling convention
does and raises `TypeError` on mismatch; the counterfactual in-arity path
keeps the source's `if not rate_ok` test on the returned tuple.
`rateLimit` is the Redis oracle. -/
def MCPBridge.validate (rateLimit : String → Bool × Int)
    (stage1 : String → ThreatLevel × List String)
    (stage2 : String → ThreatLevel × ℚ × List String)
    (stage3 : String → Option SemanticOperatorDAG → ThreatLevel × ℚ × List String)
    (query : String) (dag : Option SemanticOperatorDAG) (userId : Option String) :
    Except PyErr SecurityValidation :=
  match userId with
  | some uid =>
    if bridgeRateLimitArgCount ≤ rateLimitCheckParamCount then
      let rateOk := rateLimit ("user:" ++ uid)
      if !(tupleTruthy rateOk) then
        .ok { passed := false, threat_level := .blocked, stage_reached := 0,
              confidence := 1, issues := ["Rate limit exceeded"], latency_ms := 0 }
      else .ok (MCPBridge.validateStages stage1 stage2 stage3 query dag)
    else .error .typeError
  | Option.none => .ok (MCPBridge.validateStages stage1 stage2 stage3 query dag)

/-- Modelled from the spec: `SpatialEntity` (`models/entities.py`, §3):
name, kind tag, optional bbox and center, confidence. -/
structure SpatialEntity where
  name : String
  type : String
  bbox : Option (ℚ × ℚ × ℚ × ℚ)
  center : Option (ℚ × ℚ)
  confidence : ℚ

/-- `OCEAN_REGIONS` (domain_knowledge.py:7-92): name, bbox
`[min_lon, min_lat, max_lon, max_lat]`, center. -/
def OCEAN_REGIONS : List (String × (ℚ × ℚ × ℚ × ℚ) × (ℚ × ℚ)) :=
  [("Arabian Sea", (50, 8, 77, 28), (63.5, 18)),
   ("Bay of Bengal", (80, 5, 95, 23), (87.5, 14)),
   ("North Atlantic", (-80, 20, 0, 65), (-40, 42.5)),
   ("South Atlantic", (-70, -60, 20, 0), (-25, -30)),
   ("North Pacific", (100, 0, -100, 65), (180, 32.5)),
   ("South Pacific", (140, -60, -70, 0), (-145, -30)),
   ("Indian Ocean", (20, -60, 120, 30), (70, -15)),
   ("Southern Ocean", (-180, -90, 180, -60), (0, -75)),
   ("Arctic Ocean", (-180, 66, 180, 90), (0, 78)),
   ("Mediterranean Sea", (-6, 30, 36, 46), (15, 38)),
   ("Gulf of Mexico", (-98, 18, -80, 31), (-89, 24.5)),
   ("Caribbean Sea", (-88, 9, -60, 22), (-74, 15.5)),
   ("Red Sea", (32, 12, 44, 30), (38, 21)),
   ("Persian Gulf", (48, 24, 56, 30), (52, 27)),
   ("South China Sea", (100, 0, 121, 25), (110.5, 12.5)),
   ("East China Sea", (117, 23, 131, 33), (124, 28)),
   ("Sea of Japan", (127, 33, 142, 52), (134.5, 42.5)),
   ("Coral Sea", (142, -25, 175, -10), (158.5, -17.5)),
   ("Tasman Sea", (145, -45, 175, -28), (160, -36.5)),
   ("Weddell Sea", (-60, -80, -20, -60), (-40, -70)),
   ("Ross Sea", (160, -85, -150, -70), (175, -77.5))]

/-- `str.lower()` implemented structurally over the character list (the
core `String.toLower` is not kernel-reducible). -/
def strLower (s : String) : String :=
  String.mk (s.data.map Char.toLower)

/-- Is the first character list a prefix of the second? -/
def charsPrefix : List Char → List Char → Bool
  | [], _ => true
  | _ :: _, [] => false
  | a :: as, b :: bs => a == b && charsPrefix as bs

/-- Does the first character list occur inside the second? -/
def charsSub (n : List Char) : List Char → Bool
  | [] => charsPrefix n []
  | c :: rest => charsPrefix n (c :: rest) || charsSub n rest

/-- Python `needle in haystack` on strings. -/
def strIn (needle haystack : String) : Bool :=
  charsSub needle.data haystack.data

/-- One match of the coordinate regex of `_extract_spatial`
(entity_extractor.py:112), already split into its captured groups
(the regex engine is external, so matches arrive as an oracle input). -/
structure CoordMatch where
  lat : ℚ
  isSouth : Bool
  lon : ℚ
  isWest : Bool

/-- `EntityExtractor._extract_spatial` (entity_extractor.py:69-140):
known-region lookup (confidence 0.95, table order), then unmatched
spaCy GPE/LOC entities (confidence 0.6), then coordinate-pattern points
(confidence 0.9), then the `equator` special case.  `ents` is the spaCy
NER oracle (entity text and label), `coords` the regex-match oracle. -/
def EntityExtractor.extract_spatial (ents : List (String × String))
    (coords : List CoordMatch) (query : String) : List SpatialEntity :=
  let queryLower := strLower query
  let regionHits := OCEAN_REGIONS.filterMap (fun r =>
    if strIn (strLower r.1) queryLower then
      some { name := r.1, type := "region", bbox := some r.2.1,
             center := some r.2.2, confidence := 0.95 }
    else Option.none)
  let nerHits := ents.filterMap (fun ent =>
    if ent.2 == "GPE" || ent.2 == "LOC" then
      let entLower := strLower ent.1
      let matched := OCEAN_REGIONS.any (fun r =>
        strIn entLower (strLower r.1) || strIn (strLower r.1) entLower)
      if !matched then
        some { name := ent.1, type := "location", bbox := Option.none,
               center := Option.none, confidence := 0.6 }
      else Option.none
    else Option.none)
  let coordHits := coords.map (fun c =>
    let lat := if c.isSouth then -c.lat else c.lat
    let lon := if c.isWest then -c.lon else c.lon
    { name := "(" ++ toString lat ++ "°, " ++ toString lon ++ "°)",
      type := "point",
      bbox := some (lon - 1, lat - 1, lon + 1, lat + 1),
      center := some (lon, lat),
      confidence := 0.9 })
  let equatorHits :=
    if strIn "equator" queryLower then
      [{ name := "Equator", type := "region", bbox := some (-180, -5, 180, 5),
         center := some (0, 0), confidence := 0.95 : SpatialEntity }]
    else []
  regionHits ++ nerHits ++ coordHits ++ equatorHits

/-- Modelled from the spec: `TemporalEntity` (§3), with the fields the
generator reads; start/end are kept as already-rendered ISO strings, so
`.isoformat()` is the identity here. -/
structure TemporalEntity where
  text : String
  type : String
  start : Option String
  stop : Option String

/-- Modelled from the spec: `ParameterEntity` (§3). -/
structure ParameterEntity where
  name : String
  column : String
  unit : Option String

/-- Modelled from the spec: `FloatEntity` (§3); a falsy (empty) float id
is skipped by the generator. -/
structure FloatEntity where
  text : String
  float_id : String

/-- Modelled from the spec: `QualityEntity` (§3). -/
structure QualityEntity where
  text : String
  qc_flags : List Int
  data_mode : Option String

/-- Modelled from the spec: `DepthEntity` (§3) — carried but unused by
the generator. -/
structure DepthEntity where
  text : String
  min_depth : Option ℚ
  max_depth : Option ℚ

/-- Modelled from the spec: `ExtractedEntities` aggregate (§3). -/
structure ExtractedEntities where
  spatial : List SpatialEntity
  temporal : List TemporalEntity
  parameters : List ParameterEntity
  floats : List FloatEntity
  quality : List QualityEntity
  depth : List DepthEntity

/-- `INTENT_VISUALIZATIONS` (domain_knowledge.py:219-232). -/
def INTENT_VISUALIZATIONS : List (String × List String) :=
  [("trajectory_tracking", ["trajectory_map"]),
   ("profile_analysis", ["vertical_profile", "hovmoller"]),
   ("time_series_analysis", ["time_series", "hovmoller"]),
   ("spatial_analysis", ["heatmap", "trajectory_map"]),
   ("anomaly_detection", ["heatmap", "time_series"]),
   ("comparison", ["vertical_profile", "time_series"]),
   ("float_tracking", ["trajectory_map", "time_series"]),
   ("gradient_analysis", ["heatmap", "vertical_profile"]),
   ("water_mass_analysis", ["ts_diagram"]),
   ("mixed_layer_analysis", ["hovmoller", "time_series"]),
   ("quality_check", ["qc_dashboard"]),
   ("general_query", ["time_series", "vertical_profile"])]

/-- `OperatorGenerator.base_costs` (operator_generator.py:44-59) — note
its QC_FILTER cost differs from the planner's table. -/
def OperatorGenerator.base_costs : OperatorType → ℚ
  | .spatial_filter => 50
  | .temporal_filter => 30
  | .parameter_filter => 20
  | .qc_filter => 20
  | .float_filter => 25
  | .aggregate => 100
  | .group_by => 80
  | .compute_gradient => 150
  | .compute_mld => 200
  | .compute_anomaly => 180
  | .compute_stats => 100
  | .semantic_search => 300
  | .join => 150
  | .visualize => 250

/-- `OperatorGenerator.server_mapping` (operator_generator.py:26-41),
identical in content to the planner's assignment table. -/
def OperatorGenerator.server_mapping : OperatorType → String :=
  QueryPlanner.server_assignments

/-- The growing chain state of `OperatorGenerator.generate`: emitted
operators and edges, the current tail id and a counter standing in for
the uuid suffix of generated operator ids. -/
structure GenState where
  ops : List Operator
  edges : List Edge
  lastId : Option String
  counter : Nat

/-- `OperatorGenerator._create_operator` (operator_generator.py:229-243)
followed by the append-and-edge idiom repeated at every generation site
(`operators.append(op); if last_op_id: edges.append(...); last_op_id =
op.id`).  The uuid fragment in the id is modelled by the counter. -/
def appendOp (ty : OperatorType) (params : List (String × PyVal)) (st : GenState) :
    GenState :=
  let op : Operator :=
    { id := ty.value ++ "_" ++ toString st.counter,
      type := ty,
      params := params,
      estimated_cost := OperatorGenerator.base_costs ty,
      target_server := OperatorGenerator.server_mapping ty }
  { ops := st.ops ++ [op],
    edges := st.edges ++ (match st.lastId with
      | some l => [{ from_id := l, to_id := op.id }]
      | Option.none => []),
    lastId := some op.id,
    counter := st.counter + 1 }

/-- One iteration of the spatial loop (operator_generator.py:88-100):
append a SPATIAL_FILTER when the entity carries a bbox. -/
def genSpatialStep (st : GenState) (sp : SpatialEntity) : GenState :=
  match sp.bbox with
  | some (a, b, c, d) =>
    appendOp .spatial_filter
      [("bbox", .list [.num a, .num b, .num c, .num d]),
       ("region_name", .str sp.name)] st
  | Option.none => st

/-- Spatial block of `OperatorGenerator.generate`
(operator_generator.py:87-101): one SPATIAL_FILTER per spatial entity
carrying a bbox. -/
def genSpatial (entities : ExtractedEntities) (st : GenState) : GenState :=
  entities.spatial.foldl genSpatialStep st

/-- One iteration of the temporal loop (operator_generator.py:104-117):
append a TEMPORAL_FILTER when the entity carries both endpoints. -/
def genTemporalStep (st : GenState) (t : TemporalEntity) : GenState :=
  match t.start, t.stop with
  | some s, some e =>
    appendOp .temporal_filter
      [("start", .str s), ("end", .str e), ("type", .str t.type)] st
  | _, _ => st

/-- Temporal block (operator_generator.py:103-117): one TEMPORAL_FILTER
per temporal entity carrying both endpoints. -/
def genTemporal (entities : ExtractedEntities) (st : GenState) : GenState :=
  entities.temporal.foldl genTemporalStep st

/-- Parameter block (operator_generator.py:119-132): at most one
PARAMETER_FILTER. -/
def genParams (entities : ExtractedEntities) (st : GenState) : GenState :=
  if entities.parameters.isEmpty then st
  else
    appendOp .parameter_filter
      [("parameters", .list (entities.parameters.map (fun p => .str p.column))),
       ("include_qc", .bool true)] st

/-- Float block (operator_generator.py:134-145): at most one FLOAT_FILTER,
only when some float id is truthy. -/
def genFloats (entities : ExtractedEntities) (st : GenState) : GenState :=
  if entities.floats.isEmpty then st
  else
    let floatIds := entities.floats.filterMap (fun f =>
      if f.float_id == "" then Option.none else some f.float_id)
    if floatIds.isEmpty then st
    else appendOp .float_filter
      [("float_ids", .list (floatIds.map (fun i => .str i)))] st

/-- QC block (operator_generator.py:147-167): at most one QC_FILTER, only
when some flag or data mode was extracted. -/
def genQuality (entities : ExtractedEntities) (st : GenState) : GenState :=
  if entities.quality.isEmpty then st
  else
    let qcFlags := entities.quality.foldl (fun acc q => acc ++ q.qc_flags)
      ([] : List Int)
    let dataMode := entities.quality.foldl (fun acc q =>
      match q.data_mode with
      | some d => some d
      | Option.none => acc) Option.none
    if !qcFlags.isEmpty || dataMode.isSome then
      appendOp .qc_filter
        [("qc_flags",
           if qcFlags.isEmpty then .none
           else .list (qcFlags.eraseDups.map (fun f => .num (f : ℚ)))),
         ("data_mode", match dataMode with
           | some d => .str d
           | Option.none => .none)] st
    else st

/-- Intent-driven computation block (operator_generator.py:169-211): at
most one compute operator. -/
def genComputes (entities : ExtractedEntities) (intent : String) (st : GenState) :
    GenState :=
  if intent == "gradient_analysis" then
    let param := match entities.parameters.head? with
      | some p => p.column
      | Option.none => "temperature"
    appendOp .compute_gradient
      [("parameter", .str param), ("method", .str "finite_difference")] st
  else if intent == "mixed_layer_analysis" then
    appendOp .compute_mld
      [("method", .str "temperature_threshold"), ("threshold", .num 0.5)] st
  else if intent == "anomaly_detection" then
    let param := match entities.parameters.head? with
      | some p => p.column
      | Option.none => "temperature"
    appendOp .compute_anomaly
      [("parameter", .str param), ("baseline", .str "climatology")] st
  else if intent == "comparison" then
    appendOp .compute_stats
      [("metrics", .list [.str "mean", .str "std", .str "min", .str "max"])] st
  else st

/-- Terminal visualization block (operator_generator.py:213-225). -/
def genViz (entities : ExtractedEntities) (intent : String) (st : GenState) : GenState :=
  let vizTypes :=
    match (INTENT_VISUALIZATIONS.find? (fun kv => kv.1 == intent)).map (·.2) with
    | some ts => ts
    | Option.none => ["time_series"]
  appendOp .visualize
    [("type", .str (match vizTypes.head? with
       | some t => t
       | Option.none => "time_series")),
     ("alternatives", .list (vizTypes.tail.map (fun t => .str t))),
     ("parameters", .list
       (if entities.parameters.isEmpty then [.str "temperature"]
        else entities.parameters.map (fun p => .str p.column)))] st

/-- `OperatorGenerator.generate` (operator_generator.py:61-227): filter
operators in the fixed spatial → temporal → parameter → float → quality
order, then at most one intent-driven compute operator, then the
terminal VISUALIZE operator. -/
def OperatorGenerator.generate (entities : ExtractedEntities) (intent : String) :
    List Operator × List Edge :=
  let st : GenState := { ops := [], edges := [], lastId := Option.none, counter := 0 }
  let st := genViz entities intent (genComputes entities intent
    (genQuality entities (genFloats entities (genParams entities
      (genTemporal entities (genSpatial entities st))))))
  (st.ops, st.edges)

/-- A rate-limit oracle that always allows (used in witnesses). -/
def rlAllow : String → Bool × Int := fun _ => (true, 99)

/-- A Stage-1 oracle that always reports SAFE (used in witnesses). -/
def stage1Safe : String → ThreatLevel × List String := fun _ => (.safe, [])

/-- A Stage-2 oracle that always reports SAFE (used in witnesses). -/
def stage2Safe : String → ThreatLevel × ℚ × List String := fun _ => (.safe, 1, [])

/-- A Stage-3 oracle that always reports SAFE (used in witnesses). -/
def stage3Safe : String → Option SemanticOperatorDAG → ThreatLevel × ℚ × List String :=
  fun _ _ => (.safe, 0.95, [])

/-- C3: the claim says a rate-limited request yields a returned
`SecurityValidation` with `passed=false`, `threat_level=BLOCKED`,
`stage_reached=0` and no exception; the code instead raises `TypeError`
on every request that carries a `user_id` — for any rate-limit state and
any stage behaviour — because mcp_bridge.py:135 passes three positional
arguments to the two-parameter `rate_limit_check` (core/redis.py:109),
so Stage 1 is indeed never run, but nothing is returned either. -/
theorem validate_with_user_id_raises_type_error
    (rateLimit : String → Bool × Int)
    (stage1 : String → ThreatLevel × List String)
    (stage2 : String → ThreatLevel × ℚ × List String)
    (stage3 : String → Option SemanticOperatorDAG → ThreatLevel × ℚ × List String)
    (query : String) (dag : Option SemanticOperatorDAG) (uid : String) :
    MCPBridge.validate rateLimit stage1 stage2 stage3 query dag (some uid) =
      .error .typeError := rfl

/-- Every result of the stage pipeline satisfies
`passed = (threat_level = SAFE)`. -/
theorem validateStages_passed_iff_safe
    (stage1 : String → ThreatLevel × List String)
    (stage2 : String → ThreatLevel × ℚ × List String)
    (stage3 : String → Option SemanticOperatorDAG → ThreatLevel × ℚ × List String)
    (query : String) (dag : Option SemanticOperatorDAG) :
    ((MCPBridge.validateStages stage1 stage2 stage3 query dag).passed = true ↔
      (MCPBridge.validateStages stage1 stage2 stage3 query dag).threat_level = .safe) := by
  rcases h1 : stage1 query with ⟨s1, i1⟩
  simp only [MCPBridge.validateStages, h1]
  cases s1
  case safe => simp [MCPBridge.neural_enabled]
  case blocked => simp
  case suspicious =>
    rcases h2 : stage2 query with ⟨s2, sc2, i2⟩
    simp only [h2, MCPBridge.neural_enabled, MCPBridge.llm_enabled]
    cases s2
    case safe => simp
    case blocked => simp
    case suspicious =>
      rcases h3 : stage3 query dag with ⟨s3, sc3, i3⟩
      simp only [h3]
      cases s3 <;> simp

/-- C9: whenever `MCPBridge.validate` returns a `SecurityValidation`
(rather than raising), `passed` holds exactly when the threat level is
SAFE — every `passed=true` path carries SAFE and every BLOCKED or
SUSPICIOUS result carries `passed=false` — for all queries, user ids,
DAGs and stage behaviours. -/
theorem validate_passed_iff_safe
    (rateLimit : String → Bool × Int)
    (stage1 : String → ThreatLevel × List String)
    (stage2 : String → ThreatLevel × ℚ × List String)
    (stage3 : String → Option SemanticOperatorDAG → ThreatLevel × ℚ × List String)
    (query : String) (dag : Option SemanticOperatorDAG) (userId : Option String)
    (v : SecurityValidation)
    (h : MCPBridge.validate rateLimit stage1 stage2 stage3 query dag userId = .ok v) :
    (v.passed = true ↔ v.threat_level = .safe) := by
  cases userId with
  | none =>
    simp only [MCPBridge.validate, Except.ok.injEq] at h
    subst h
    exact validateStages_passed_iff_safe stage1 stage2 stage3 query dag
  | some uid =>
    simp [MCPBridge.validate, bridgeRateLimitArgCount, rateLimitCheckParamCount] at h

/-- Witness for C9 at a concrete input: a fully SAFE pipeline with no
user id returns the all-clear validation, and the theorem applies. -/
theorem validate_passed_iff_safe_witness :
    (MCPBridge.validate rlAllow stage1Safe stage2Safe stage3Safe "show temperature"
        Option.none Option.none =
      .ok { passed := true, threat_level := .safe, stage_reached := 1,
            confidence := 1, issues := [], latency_ms := 0 }) ∧
    (({ passed := true, threat_level := .safe, stage_reached := 1,
        confidence := 1, issues := [], latency_ms := 0 : SecurityValidation }).passed = true ↔
      ({ passed := true, threat_level := .safe, stage_reached := 1,
         confidence := 1, issues := [], latency_ms := 0 : SecurityValidation }).threat_level = .safe) :=
  ⟨rfl, validate_passed_iff_safe rlAllow stage1Safe stage2Safe stage3Safe
    "show temperature" Option.none Option.none _ rfl⟩

/-- C8: whichever NER entities and coordinate matches the external
engines report, a query whose lowercased text contains "arabian sea"
yields a spatial entity named "Arabian Sea" of kind region with the
configured bbox (50, 8, 77, 28) and confidence 0.95. -/
theorem extract_spatial_arabian_sea
    (ents : List (String × String)) (coords : List CoordMatch) (query : String)
    (h : strIn "arabian sea" (strLower query) = true) :
    ∃ e ∈ EntityExtractor.extract_spatial ents coords query,
      e.name = "Arabian Sea" ∧ e.type = "region" ∧
      e.bbox = some (50, 8, 77, 28) ∧ e.confidence = 0.95 := by
  refine ⟨{ name := "Arabian Sea", type := "region", bbox := some (50, 8, 77, 28),
            center := some (63.5, 18), confidence := 0.95 }, ?_, rfl, rfl, rfl, rfl⟩
  simp only [EntityExtractor.extract_spatial]
  apply List.mem_append_left
  apply List.mem_append_left
  apply List.mem_append_left
  rw [List.mem_filterMap]
  refine ⟨("Arabian Sea", (50, 8, 77, 28), (63.5, 18)), by simp [OCEAN_REGIONS], ?_⟩
  have hlow : strLower "Arabian Sea" = "arabian sea" := by decide
  simp [hlow, h]

/-- Witness for C8: the concrete query of spec §8 contains the phrase and
the theorem produces the Arabian Sea entity for it. -/
theorem extract_spatial_arabian_sea_witness :
    (strIn "arabian sea" (strLower "show temperature in the Arabian Sea") = true) ∧
    (∃ e ∈ EntityExtractor.extract_spatial [] [] "show temperature in the Arabian Sea",
      e.name = "Arabian Sea" ∧ e.type = "region" ∧
      e.bbox = some (50, 8, 77, 28) ∧ e.confidence = 0.95) :=
  ⟨by decide, extract_spatial_arabian_sea [] [] "show temperature in the Arabian Sea"
    (by decide)⟩

/-- Identity stand-in for the sha256 truncation oracle (witnesses). -/
def hashId : String → String := fun s => s

/-- A cache oracle with every key populated (witnesses). -/
def cacheHit : String → Option PyVal := fun _ => some (.bool true)

/-- A spatial filter over the configured North Atlantic bbox
(area 80 × 45 = 3600 > 1000). -/
def cexSpatialOp : Operator :=
  { id := "s1", type := .spatial_filter,
    params := [("bbox", .list [.num (-80), .num 20, .num 0, .num 65])],
    estimated_cost := 0, target_server := "structured" }


/-- C5 counterexample: with the North Atlantic spatial filter fully
cached, `_estimate_costs` yields adjusted cost 50·(1+3600/1000)·0.05 =
11.5 ms, which exceeds 10% of the undiscounted static base cost
(50 ms → 5 ms), refuting the claim as stated. -/
theorem estimate_cached_exceeds_tenth_of_base :
    (QueryPlanner.estimate_one hashId cacheHit cexSpatialOp).map
        (fun p => (p.1.base_cost, p.1.adjusted_cost, p.1.cache_available)) =
      .ok (50, 23/2, true) ∧
    ¬ ((23 : ℚ)/2 ≤ 50 / 10) := by
  constructor
  · simp [QueryPlanner.estimate_one, QueryPlanner.selAdjusted, cexSpatialOp,
          QueryPlanner.base_costs, dictGetD, dictGet, pyTruthy, pyIndex, pyNum,
          cacheHit, pure, Except.pure, Except.map, Except.instMonad, Except.bind]
    norm_num
  · norm_num

/-- C5 (amended): a cached operator's discounted estimate equals 5% of
its selectivity-adjusted undiscounted cost, hence is at most 10% of that
selectivity-adjusted cost whenever the latter is nonnegative (the 10%
bound relative to the static base cost holds only when the selectivity
factor is ≤ 2, which spatial filters with bbox area > 1000 violate). -/
theorem estimate_cached_discount (hash : String → String)
    (cache : String → Option PyVal) (op : Operator) (a : ℚ)
    (hsel : QueryPlanner.selAdjusted op = .ok a)
    (hcache : (cache (QueryPlanner.generate_cache_key hash op)).isSome = true) :
    QueryPlanner.estimate_one hash cache op =
      .ok ({ base_cost := QueryPlanner.base_costs op.type, adjusted_cost := a * (1/20),
             cache_available := true, historical_cost := Option.none },
           { op with estimated_cost := a * (1/20) }) ∧
    (0 ≤ a → a * (1/20) ≤ a / 10) := by
  constructor
  · simp only [QueryPlanner.estimate_one, hsel, hcache]
    norm_num [pure, Except.pure, Except.instMonad, Except.bind]
  · intro ha
    linarith

/-- Witness for C5's amended theorem: a cached temporal filter
(selectivity-adjusted cost 45) satisfies both hypotheses and the bound. -/
theorem estimate_cached_discount_witness :
    (QueryPlanner.selAdjusted
        { id := "t1", type := .temporal_filter, params := [],
          estimated_cost := 0, target_server := "structured" } = .ok 45) ∧
    ((cacheHit (QueryPlanner.generate_cache_key hashId
        { id := "t1", type := .temporal_filter, params := [],
          estimated_cost := 0, target_server := "structured" })).isSome = true) ∧
    ((0 : ℚ) ≤ 45 → (45 : ℚ) * (1/20) ≤ 45 / 10) :=
  ⟨by norm_num [QueryPlanner.selAdjusted, QueryPlanner.base_costs, pure, Except.pure,
      Except.instMonad, Except.bind],
   rfl,
   (estimate_cached_discount hashId cacheHit
     { id := "t1", type := .temporal_filter, params := [],
       estimated_cost := 0, target_server := "structured" } 45
     (by norm_num [QueryPlanner.selAdjusted, QueryPlanner.base_costs, pure, Except.pure,
        Except.instMonad, Except.bind]) rfl).2⟩

/-- Writing a key into a dict makes it readable back. -/
theorem dictGet_dictSet (kvs : List (String × PyVal)) (k : String) (v : PyVal) :
    dictGet (dictSet kvs k v) k = some v := by
  induction kvs with
  | nil => simp [dictSet, dictGet]
  | cons kv rest ih =>
    obtain ⟨k1, v1⟩ := kv
    by_cases h : k1 = k
    · simp [dictSet, h, dictGet]
    · simp only [dictSet, if_neg h, dictGet, List.find?]
      rw [show ((k1, v1).1 == k) = false by simpa using h]
      exact ih

/-- Membership through deadline strategy 1: survivors come from the
input, and when the 1.5× threshold was exceeded none of them is a
VISUALIZE step. -/
theorem strategy1_mem (d : ℚ) (l : List ExecutionStep) (s : ExecutionStep)
    (h : s ∈ QueryPlanner.strategy1 d l) :
    s ∈ l ∧ (totalCost l > d * 1.5 → s.operator.type ≠ .visualize) := by
  unfold QueryPlanner.strategy1 at h
  by_cases hc : totalCost l > d * 1.5
  · rw [if_pos hc] at h
    have hm := List.mem_filter.1 h
    exact ⟨hm.1, fun _ => by simpa using hm.2⟩
  · rw [if_neg hc] at h
    exact ⟨h, fun hcc => absurd hcc hc⟩

/-- Membership through deadline strategy 2: the type is preserved,
compute steps get `fast_mode`, all other steps pass unchanged. -/
theorem strategy2_mem (l : List ExecutionStep) (s : ExecutionStep)
    (h : s ∈ QueryPlanner.strategy2 l) :
    ∃ s0 ∈ l, s.operator.type = s0.operator.type ∧
      ((s0.operator.type = .compute_gradient ∨ s0.operator.type = .compute_mld ∨
        s0.operator.type = .compute_anomaly) →
        dictGet s.operator.params "fast_mode" = some (.bool true)) ∧
      (¬(s0.operator.type = .compute_gradient ∨ s0.operator.type = .compute_mld ∨
         s0.operator.type = .compute_anomaly) → s = s0) := by
  unfold QueryPlanner.strategy2 at h
  obtain ⟨s0, hs0, heq⟩ := List.mem_map.1 h
  by_cases hcond : (s0.operator.type == OperatorType.compute_gradient ||
      s0.operator.type == OperatorType.compute_mld ||
      s0.operator.type == OperatorType.compute_anomaly) = true
  · rw [if_pos hcond] at heq
    subst heq
    refine ⟨s0, hs0, rfl, fun _ => dictGet_dictSet _ _ _, fun hn => absurd ?_ hn⟩
    exact or_assoc.mp (by simpa using hcond)
  · rw [if_neg hcond] at heq
    subst heq
    refine ⟨s0, hs0, rfl, fun hy => absurd ?_ hcond, fun _ => rfl⟩
    simp only [Bool.or_eq_true, beq_iff_eq]
    exact or_assoc.mpr hy

/-- Membership through deadline strategy 3: the type is preserved,
non-filter steps pass unchanged, and when the re-checked cost exceeded
the deadline every filter step gets `sample_rate = 0.5`. -/
theorem strategy3_mem (d : ℚ) (l : List ExecutionStep) (s : ExecutionStep)
    (h : s ∈ QueryPlanner.strategy3 d l) :
    ∃ s0 ∈ l, s.operator.type = s0.operator.type ∧
      (¬(s0.operator.type = .spatial_filter ∨ s0.operator.type = .temporal_filter) →
        s = s0) ∧
      (totalCost l > d →
        (s0.operator.type = .spatial_filter ∨ s0.operator.type = .temporal_filter) →
        dictGet s.operator.params "sample_rate" = some (.num 0.5)) := by
  unfold QueryPlanner.strategy3 at h
  by_cases hc : totalCost l > d
  · rw [if_pos hc] at h
    obtain ⟨s0, hs0, heq⟩ := List.mem_map.1 h
    by_cases hcond : (s0.operator.type == OperatorType.spatial_filter ||
        s0.operator.type == OperatorType.temporal_filter) = true
    · rw [if_pos hcond] at heq
      subst heq
      exact ⟨s0, hs0, rfl, fun hn => absurd (by simpa using hcond) hn,
        fun _ _ => dictGet_dictSet _ _ _⟩
    · rw [if_neg hcond] at heq
      subst heq
      exact ⟨s0, hs0, rfl, fun _ => rfl,
        fun _ hy => absurd (by simpa using hy) hcond⟩
  · rw [if_neg hc] at h
    exact ⟨s, h, rfl, fun _ => rfl, fun hcc => absurd hcc hc⟩

/-- C6 (amended): once optimization is triggered (entry cost > deadline),
phase 1 drops VISUALIZE steps exactly when the entry cost exceeds
1.5 × deadline, phase 2 applies `fast_mode` to every compute operator
UNCONDITIONALLY — with no cost re-check after phase 1 — and phase 3
applies `sample_rate = 0.5` to filter operators exactly when the cost
re-computed after phases 1-2 still exceeds the deadline. -/
theorem optimize_for_deadline_phase_order (steps : List ExecutionStep) (d : ℚ)
    (hcost : totalCost steps > d) :
    (∀ s ∈ QueryPlanner.optimize_for_deadline steps d,
       (s.operator.type = .compute_gradient ∨ s.operator.type = .compute_mld ∨
        s.operator.type = .compute_anomaly) →
       dictGet s.operator.params "fast_mode" = some (.bool true)) ∧
    (totalCost steps > d * 1.5 →
      ∀ s ∈ QueryPlanner.optimize_for_deadline steps d,
        s.operator.type ≠ .visualize) ∧
    (¬ totalCost steps > d * 1.5 → QueryPlanner.strategy1 d steps = steps) ∧
    (totalCost (QueryPlanner.strategy2 (QueryPlanner.strategy1 d steps)) > d →
      ∀ s ∈ QueryPlanner.optimize_for_deadline steps d,
        (s.operator.type = .spatial_filter ∨ s.operator.type = .temporal_filter) →
        dictGet s.operator.params "sample_rate" = some (.num 0.5)) ∧
    (¬ totalCost (QueryPlanner.strategy2 (QueryPlanner.strategy1 d steps)) > d →
      QueryPlanner.optimize_for_deadline steps d =
        QueryPlanner.strategy2 (QueryPlanner.strategy1 d steps)) := by
  have hopt : QueryPlanner.optimize_for_deadline steps d =
      QueryPlanner.strategy3 d (QueryPlanner.strategy2 (QueryPlanner.strategy1 d steps)) := by
    unfold QueryPlanner.optimize_for_deadline
    rw [if_neg (not_le.mpr hcost)]
  refine ⟨?_, ?_, ?_, ?_, ?_⟩
  · intro s hs hty
    rw [hopt] at hs
    obtain ⟨s2, hs2, hty2, hid2, _⟩ := strategy3_mem _ _ _ hs
    have hnotf : ¬(s2.operator.type = .spatial_filter ∨
        s2.operator.type = .temporal_filter) := by
      intro hf
      rcases hf with hf | hf <;> rcases hty with h | h | h <;>
        rw [← hty2] at hf <;> rw [h] at hf <;> exact absurd hf (by simp)
    have hseq := hid2 hnotf
    subst hseq
    obtain ⟨s0, _, hty0, hfast, _⟩ := strategy2_mem _ _ hs2
    apply hfast
    rcases hty with h | h | h
    · exact Or.inl (hty0.symm.trans h)
    · exact Or.inr (Or.inl (hty0.symm.trans h))
    · exact Or.inr (Or.inr (hty0.symm.trans h))
  · intro h15 s hs
    rw [hopt] at hs
    obtain ⟨s2, hs2, hty2, _, _⟩ := strategy3_mem _ _ _ hs
    obtain ⟨s0, hs0, hty0, _, _⟩ := strategy2_mem _ _ hs2
    have hv := (strategy1_mem _ _ _ hs0).2 h15
    rw [hty2, hty0]
    exact hv
  · intro h15
    unfold QueryPlanner.strategy1
    rw [if_neg h15]
  · intro hcost2 s hs hf
    rw [hopt] at hs
    obtain ⟨s2, hs2, hty2, _, hsample⟩ := strategy3_mem _ _ _ hs
    apply hsample hcost2
    rcases hf with h | h
    · exact Or.inl (hty2.symm.trans h)
    · exact Or.inr (hty2.symm.trans h)
  · intro hcost2
    rw [hopt]
    unfold QueryPlanner.strategy3
    rw [if_neg hcost2]

/-- A VISUALIZE step at its 250 ms base cost. -/
def cexVizStep : ExecutionStep :=
  { operator := { id := "v1", type := .visualize, params := [],
                  estimated_cost := 250, target_server := "visualization" },
    mcp_server := "visualization", cache_key := Option.none,
    timeout := 1000, depends_on := [] }

/-- A COMPUTE_GRADIENT step at its 150 ms base cost. -/
def cexGradStep : ExecutionStep :=
  { operator := { id := "g1", type := .compute_gradient, params := [],
                  estimated_cost := 150, target_server := "profile" },
    mcp_server := "profile", cache_key := Option.none,
    timeout := 1000, depends_on := [] }

/-- C6 counterexample: a [VISUALIZE 250, GRADIENT 150] plan under a
200 ms deadline costs 400 > 300 = 1.5 × deadline, so phase 1 drops the
VISUALIZE step, bringing the cost to 150 ≤ 200 — yet the surviving
gradient step still receives `fast_mode` and a halved cost (75), so the
`fast_mode` flag is NOT applied "only if cost still exceeds the deadline
after phase 1" as claimed. -/
theorem optimize_fast_mode_without_recheck :
    totalCost [cexVizStep, cexGradStep] > 200 ∧
    ¬ (totalCost (QueryPlanner.strategy1 200 [cexVizStep, cexGradStep]) > 200) ∧
    (QueryPlanner.optimize_for_deadline [cexVizStep, cexGradStep] 200).map
        (fun s => (s.operator.id, dictGet s.operator.params "fast_mode",
                   s.operator.estimated_cost)) =
      [("g1", some (.bool true), 75)] := by
  have hb1 : (OperatorType.compute_gradient == OperatorType.visualize) = false := rfl
  have hb2 : (OperatorType.visualize == OperatorType.visualize) = true := rfl
  refine ⟨by norm_num [totalCost, cexVizStep, cexGradStep], ?_, ?_⟩
  · norm_num [QueryPlanner.strategy1, totalCost, cexVizStep, cexGradStep,
      List.filter, hb1, hb2]
  · norm_num [QueryPlanner.optimize_for_deadline, QueryPlanner.strategy1,
      QueryPlanner.strategy2, QueryPlanner.strategy3, totalCost,
      cexVizStep, cexGradStep, dictSet, dictGet, List.filter, hb1, hb2,
      Function.comp]

/-- Witness for C6's amended theorem at the concrete 400 ms / 200 ms
plan: the entry condition holds and `fast_mode` is set on every compute
step of the optimized plan. -/
theorem optimize_phase_order_witness :
    totalCost [cexVizStep, cexGradStep] > 200 ∧
    (∀ s ∈ QueryPlanner.optimize_for_deadline [cexVizStep, cexGradStep] 200,
       (s.operator.type = .compute_gradient ∨ s.operator.type = .compute_mld ∨
        s.operator.type = .compute_anomaly) →
       dictGet s.operator.params "fast_mode" = some (.bool true)) :=
  ⟨by norm_num [totalCost, cexVizStep, cexGradStep],
   (optimize_for_deadline_phase_order [cexVizStep, cexGradStep] 200
     (by norm_num [totalCost, cexVizStep, cexGradStep])).1⟩

/-- Overwriting the same dict key twice keeps only the second value. -/
theorem dictSet_dictSet (kvs : List (String × PyVal)) (k : String) (v1 v2 : PyVal) :
    dictSet (dictSet kvs k v1) k v2 = dictSet kvs k v2 := by
  induction kvs with
  | nil => simp [dictSet]
  | cons kv rest ih =>
    obtain ⟨k1, w⟩ := kv
    by_cases h : k1 = k
    · simp [dictSet, h]
    · simp [dictSet, h, ih]

/-- The dependency-injection fold of `_execute_step`, characterised: with
no recorded dependency it leaves the params alone, otherwise it stores the
`data` of the LAST recorded dependency (in `depends_on` order) under the
single `input_data` key. -/
theorem foldParams_spec (prev : List (String × PyVal)) (deps : List String)
    (params : List (String × PyVal)) :
    ((deps.filter (fun d => (dictGet prev d).isSome)) = [] →
      deps.foldl (fun p depId =>
        match dictGet prev depId with
        | some r => dictSet p "input_data" (pyDictGetD r "data" .none)
        | Option.none => p) params = params) ∧
    (∀ dLast r,
      (deps.filter (fun d => (dictGet prev d).isSome)).getLast? = some dLast →
      dictGet prev dLast = some r →
      deps.foldl (fun p depId =>
        match dictGet prev depId with
        | some r => dictSet p "input_data" (pyDictGetD r "data" .none)
        | Option.none => p) params =
        dictSet params "input_data" (pyDictGetD r "data" .none)) := by
  induction deps generalizing params with
  | nil => exact ⟨fun _ => rfl, fun dLast r h _ => by simp at h⟩
  | cons d ds ih =>
    rcases h : dictGet prev d with _ | r0
    · constructor
      · intro hf
        rw [List.filter_cons_of_neg (by simp [h])] at hf
        simp only [List.foldl_cons, h]
        exact (ih params).1 hf
      · intro dLast r hl hr
        rw [List.filter_cons_of_neg (by simp [h])] at hl
        simp only [List.foldl_cons, h]
        exact (ih params).2 dLast r hl hr
    · constructor
      · intro hf
        rw [List.filter_cons_of_pos (by simp [h])] at hf
        simp at hf
      · intro dLast r hl hr
        rw [List.filter_cons_of_pos (by simp [h])] at hl
        simp only [List.foldl_cons, h]
        rcases hfd : ds.filter (fun d => (dictGet prev d).isSome) with _ | ⟨d1, rest⟩
        · rw [hfd] at hl
          simp only [List.getLast?_singleton, Option.some.injEq] at hl
          subst hl
          rw [h] at hr
          injection hr with hr
          subst hr
          exact (ih _).1 hfd
        · rw [hfd] at hl
          rw [List.getLast?_cons_cons] at hl
          rw [← hfd] at hl
          have := (ih (dictSet params "input_data" (pyDictGetD r0 "data" .none))).2
            dLast r hl hr
          rw [this, dictSet_dictSet]

/-- C7: for every step, `_execute_step` builds the request params as the
operator's params, unchanged when no dependency has a recorded output,
and otherwise with a single `input_data` key holding exactly the `data`
of the last dependency in `depends_on` order that has a recorded output —
failed dependencies contribute nothing. -/
theorem execute_step_input_data (prev : List (String × PyVal)) (step : ExecutionStep)
    (hdeps : step.depends_on ≠ []) :
    ((step.depends_on.filter (fun d => (dictGet prev d).isSome)) = [] →
      buildStepParams prev step = step.operator.params) ∧
    (∀ dLast r,
      (step.depends_on.filter (fun d => (dictGet prev d).isSome)).getLast? = some dLast →
      dictGet prev dLast = some r →
      buildStepParams prev step =
        dictSet step.operator.params "input_data" (pyDictGetD r "data" .none)) :=
  foldParams_spec prev step.depends_on step.operator.params

/-- Step results recorded for two dependencies (witness input). -/
def cexPrev : List (String × PyVal) :=
  [("a", .dict [("data", .str "da")]), ("b", .dict [("data", .str "db")])]

/-- A step depending on both recorded steps (witness input). -/
def cexDepStep : ExecutionStep :=
  { operator := { id := "s2", type := .parameter_filter, params := [("p", .num 1)],
                  estimated_cost := 20, target_server := "structured" },
    mcp_server := "structured", cache_key := Option.none,
    timeout := 1000, depends_on := ["a", "b"] }

/-- Witness for C7: with both dependencies recorded, the built params are
the operator's params plus `input_data` holding the LAST dependency's
(`"b"`'s) data. -/
theorem execute_step_input_data_witness :
    (cexDepStep.depends_on ≠ []) ∧
    ((cexDepStep.depends_on.filter
        (fun d => (dictGet cexPrev d).isSome)).getLast? = some "b") ∧
    (dictGet cexPrev "b" = some (.dict [("data", .str "db")])) ∧
    (buildStepParams cexPrev cexDepStep =
      dictSet cexDepStep.operator.params "input_data"
        (pyDictGetD (.dict [("data", .str "db")]) "data" .none)) :=
  ⟨by simp [cexDepStep], rfl, rfl,
   (execute_step_input_data cexPrev cexDepStep (by simp [cexDepStep])).2
     "b" (.dict [("data", .str "db")]) rfl rfl⟩

/-- C2: for every 2-step plan (steps [s1, s2], groups [[0], [1]], s2
depending on s1) and every executor behaviour in which s1's dispatch
fails (exception, timeout or unsuccessful response) while s2's succeeds,
`MCPOrchestrator.execute` returns (never raises): `success = false`,
exactly one error entry naming s1's operator id — and both steps are
still dispatched, s2 in the later group.  The `rows_count` hypothesis is
the §6 executor-contract assumption that metadata row counts are
numeric. -/
theorem execute_two_step_failure_isolated
    (executor : String → MCPRequest → ExecOutcome)
    (s1 s2 : ExecutionStep) (msg : String) (out : PyVal)
    (plan : ExecutionPlan)
    (hsteps : plan.steps = [s1, s2])
    (hgroups : plan.parallel_groups = [[0], [1]])
    (hdep : s2.depends_on = [s1.operator.id])
    (h1 : MCPOrchestrator.execute_step executor [] s1 = .error msg)
    (h2 : MCPOrchestrator.execute_step executor [] s2 = .ok out)
    (hrows : pyTruthy (pyDictGetD out "rows_count" .none) = false ∨
             ∃ q, pyDictGetD out "rows_count" .none = .num q) :
    ∃ res log, MCPOrchestrator.execute executor plan = .ok (res, log) ∧
      res.success = false ∧
      res.errors = some [⟨s1.operator.id, msg⟩] ∧
      log = [s1.operator.id, s2.operator.id] := by
  simp only [MCPOrchestrator.execute, hsteps, hgroups]
  simp only [runGroups, lookupSteps, List.get?, List.map, processGroup, h1, h2,
    List.nil_append]
  rcases hrows with hrows | ⟨q, hrows⟩
  · by_cases hc : pyTruthy (pyDictGetD out "from_cache" PyVal.none) = true <;>
      simp [hrows, hc, processGroup, pyNum, runGroups] <;>
      (refine ⟨_, _, ⟨rfl, rfl⟩, ?_, ?_, ?_⟩ <;> rfl)
  · by_cases hc : pyTruthy (pyDictGetD out "from_cache" PyVal.none) = true <;>
      by_cases hq : q = 0 <;>
      (first
        | (have hnq : pyTruthy (PyVal.num q) = false := by simp [pyTruthy, hq]
           simp [hrows, hc, hnq, processGroup, pyNum, runGroups] <;>
             (refine ⟨_, _, ⟨rfl, rfl⟩, ?_, ?_, ?_⟩ <;> rfl))
        | (have hnq : pyTruthy (PyVal.num q) = true := by simp [pyTruthy, hq]
           simp [hrows, hc, hnq, processGroup, pyNum, runGroups] <;>
             (refine ⟨_, _, ⟨rfl, rfl⟩, ?_, ?_, ?_⟩ <;> rfl)))

/-- Step 1 of the witness plan for C2 (its executor raises). -/
def cexExecStep1 : ExecutionStep :=
  { operator := { id := "op1", type := .spatial_filter, params := [],
                  estimated_cost := 50, target_server := "structured" },
    mcp_server := "structured", cache_key := Option.none,
    timeout := 1000, depends_on := [] }

/-- Step 2 of the witness plan for C2, depending on step 1. -/
def cexExecStep2 : ExecutionStep :=
  { operator := { id := "op2", type := .parameter_filter, params := [],
                  estimated_cost := 20, target_server := "structured" },
    mcp_server := "structured", cache_key := Option.none,
    timeout := 1000, depends_on := ["op1"] }

/-- Witness executor: raises on the spatial filter, succeeds otherwise. -/
def cexExecutor : String → MCPRequest → ExecOutcome := fun _ req =>
  if req.operation == "spatial_filter" then .raised "boom"
  else .respond { success := true, data := .str "ok",
                  error := Option.none, metadata := Option.none }

/-- The recorded step-2 output under the witness executor. -/
def cexOut : PyVal :=
  .dict [("data", .str "ok"), ("rows_count", .num 0), ("from_cache", .bool false)]

/-- Witness plan for C2. -/
def cexPlan : ExecutionPlan :=
  { steps := [cexExecStep1, cexExecStep2], estimated_cost := 70,
    cache_strategy := { cacheable_steps := [], ttl_policy := [], enable_cache := true },
    parallel_groups := [[0], [1]], deadline_ms := Option.none, plan_id := "p" }

/-- Witness for C2 at the concrete plan and executor. -/
theorem execute_two_step_failure_isolated_witness :
    (MCPOrchestrator.execute_step cexExecutor [] cexExecStep1 = .error "boom") ∧
    (MCPOrchestrator.execute_step cexExecutor [] cexExecStep2 = .ok cexOut) ∧
    ∃ res log, MCPOrchestrator.execute cexExecutor cexPlan = .ok (res, log) ∧
      res.success = false ∧
      res.errors = some [⟨"op1", "boom"⟩] ∧
      log = ["op1", "op2"] :=
  ⟨rfl, rfl,
   execute_two_step_failure_isolated cexExecutor cexExecStep1 cexExecStep2 "boom"
     cexOut cexPlan rfl rfl rfl rfl rfl
     (Or.inl (by simp [cexOut, pyDictGetD, dictGetD, dictGet, pyTruthy]))⟩

/-- The edge list of a linear chain over the given id sequence. -/
def chainEdges : List String → List Edge
  | [] => []
  | [_] => []
  | a :: b :: rest => { from_id := a, to_id := b } :: chainEdges (b :: rest)

/-- Appending one id to a chain adds one edge from the previous tail. -/
theorem chainEdges_append (xs : List String) (y : String) :
    chainEdges (xs ++ [y]) = chainEdges xs ++
      (match xs.getLast? with
       | some l => [{ from_id := l, to_id := y }]
       | Option.none => []) := by
  induction xs with
  | nil => simp [chainEdges]
  | cons a rest ih =>
    cases rest with
    | nil => simp [chainEdges]
    | cons b rest2 =>
      simp only [List.cons_append, chainEdges, List.getLast?_cons_cons]
      exact congrArg (List.cons _) ih

/-- Every chain edge references ids of the underlying sequence. -/
theorem chainEdges_mem (xs : List String) (e : Edge) (h : e ∈ chainEdges xs) :
    e.from_id ∈ xs ∧ e.to_id ∈ xs := by
  induction xs with
  | nil => simp [chainEdges] at h
  | cons a rest ih =>
    cases rest with
    | nil => simp [chainEdges] at h
    | cons b rest2 =>
      simp only [chainEdges, List.mem_cons] at h
      rcases h with h | h
      · subst h
        exact ⟨List.mem_cons_self _ _, List.mem_cons_of_mem _ (List.mem_cons_self _ _)⟩
      · have := ih h
        exact ⟨List.mem_cons_of_mem _ this.1, List.mem_cons_of_mem _ this.2⟩

/-- The invariant `OperatorGenerator.generate` maintains: the emitted
edges are exactly the consecutive chain over the emitted operator ids,
and the tail pointer is the last emitted id. -/
def genInv (st : GenState) : Prop :=
  st.edges = chainEdges (st.ops.map (·.id)) ∧
  st.lastId = (st.ops.map (·.id)).getLast?

/-- `appendOp` preserves the chain invariant. -/
theorem appendOp_inv (ty : OperatorType) (params : List (String × PyVal))
    (st : GenState) (h : genInv st) : genInv (appendOp ty params st) := by
  obtain ⟨he, hl⟩ := h
  unfold genInv appendOp
  dsimp only
  constructor
  · rw [List.map_append]
    simp only [List.map_cons, List.map_nil]
    rw [chainEdges_append, he, hl]
  · simp [List.map_append, List.getLast?_concat]

/-- `appendOp` appends exactly one operator of the given kind. -/
theorem appendOp_types (ty : OperatorType) (params : List (String × PyVal))
    (st : GenState) :
    (appendOp ty params st).ops.map (·.type) = st.ops.map (·.type) ++ [ty] := by
  simp [appendOp]

/-- A fold whose body preserves the chain invariant preserves it. -/
theorem foldl_inv {α : Type} (f : GenState → α → GenState)
    (hf : ∀ st x, genInv st → genInv (f st x)) :
    ∀ (l : List α) (st : GenState), genInv st → genInv (l.foldl f st) := by
  intro l
  induction l with
  | nil => exact fun st h => h
  | cons a rest ih => exact fun st h => ih (f st a) (hf st a h)

/-- A fold whose body appends `g x` operator kinds appends their
concatenation. -/
theorem foldl_types {α : Type} (f : GenState → α → GenState)
    (g : α → List OperatorType)
    (hf : ∀ st x, (f st x).ops.map (·.type) = st.ops.map (·.type) ++ g x) :
    ∀ (l : List α) (st : GenState),
      (l.foldl f st).ops.map (·.type) = st.ops.map (·.type) ++ l.bind g := by
  intro l
  induction l with
  | nil => simp
  | cons a rest ih =>
    intro st
    simp only [List.foldl_cons, ih, hf, List.cons_bind, List.append_assoc]

/-- A per-element singleton-or-empty bind is the filtered constant map. -/
theorem bind_if_filter {α : Type} (l : List α) (p : α → Bool) (t : OperatorType)
    (g : α → List OperatorType) (hg : ∀ x, g x = if p x then [t] else []) :
    l.bind g = (l.filter p).map (fun _ => t) := by
  induction l with
  | nil => simp
  | cons a rest ih =>
    by_cases h : p a
    · simp [List.cons_bind, hg, h, ih, List.filter_cons]
    · simp [List.cons_bind, hg, h, ih, List.filter_cons]

/-- The spatial loop preserves the chain invariant. -/
theorem genSpatial_inv (entities : ExtractedEntities) (st : GenState)
    (h : genInv st) : genInv (genSpatial entities st) := by
  unfold genSpatial
  apply foldl_inv genSpatialStep _ entities.spatial st h
  intro st1 sp h1
  unfold genSpatialStep
  rcases hb : sp.bbox with _ | ⟨a, b, c, d⟩
  · simpa using h1
  · exact appendOp_inv _ _ _ h1

/-- The spatial loop appends one SPATIAL_FILTER per bbox-carrying entity. -/
theorem genSpatial_types (entities : ExtractedEntities) (st : GenState) :
    (genSpatial entities st).ops.map (·.type) =
      st.ops.map (·.type) ++
        (entities.spatial.filter (fun sp => sp.bbox.isSome)).map
          (fun _ => OperatorType.spatial_filter) := by
  unfold genSpatial
  have h := foldl_types genSpatialStep
    (fun sp => if sp.bbox.isSome then [OperatorType.spatial_filter] else [])
    (by
      intro st1 sp
      unfold genSpatialStep
      rcases hb : sp.bbox with _ | ⟨a, b, c, d⟩
      · simp [hb]
      · simp [hb, appendOp_types])
    entities.spatial st
  rw [bind_if_filter _ _ _ _ (fun x => rfl)] at h
  exact h

/-- The temporal loop preserves the chain invariant. -/
theorem genTemporal_inv (entities : ExtractedEntities) (st : GenState)
    (h : genInv st) : genInv (genTemporal entities st) := by
  unfold genTemporal
  apply foldl_inv genTemporalStep _ entities.temporal st h
  intro st1 t h1
  unfold genTemporalStep
  rcases hs : t.start with _ | s0
  · simpa using h1
  · rcases he : t.stop with _ | e0
    · simpa using h1
    · exact appendOp_inv _ _ _ h1

/-- The temporal loop appends one TEMPORAL_FILTER per entity carrying
both endpoints. -/
theorem genTemporal_types (entities : ExtractedEntities) (st : GenState) :
    (genTemporal entities st).ops.map (·.type) =
      st.ops.map (·.type) ++
        (entities.temporal.filter (fun t => t.start.isSome && t.stop.isSome)).map
          (fun _ => OperatorType.temporal_filter) := by
  unfold genTemporal
  have h := foldl_types genTemporalStep
    (fun t => if t.start.isSome && t.stop.isSome
      then [OperatorType.temporal_filter] else [])
    (by
      intro st1 t
      unfold genTemporalStep
      rcases hs : t.start with _ | s0
      · simp [hs]
      · rcases he : t.stop with _ | e0
        · simp [hs, he]
        · simp [hs, he, appendOp_types])
    entities.temporal st
  rw [bind_if_filter _ _ _ _ (fun x => rfl)] at h
  exact h

/-- The parameter block preserves the chain invariant. -/
theorem genParams_inv (entities : ExtractedEntities) (st : GenState)
    (h : genInv st) : genInv (genParams entities st) := by
  unfold genParams
  by_cases hp : entities.parameters.isEmpty <;> simp [hp]
  · exact h
  · exact appendOp_inv _ _ _ h

/-- The parameter block appends at most one PARAMETER_FILTER. -/
theorem genParams_types (entities : ExtractedEntities) (st : GenState) :
    (genParams entities st).ops.map (·.type) =
      st.ops.map (·.type) ++
        (if entities.parameters.isEmpty then []
         else [OperatorType.parameter_filter]) := by
  unfold genParams
  by_cases hp : entities.parameters.isEmpty <;> simp [hp, appendOp_types]

/-- The float block preserves the chain invariant. -/
theorem genFloats_inv (entities : ExtractedEntities) (st : GenState)
    (h : genInv st) : genInv (genFloats entities st) := by
  unfold genFloats
  dsimp only
  by_cases hp : entities.floats.isEmpty = true
  · rw [if_pos hp]
    exact h
  · rw [if_neg hp]
    by_cases hq : (entities.floats.filterMap (fun f =>
        if f.float_id == "" then Option.none else some f.float_id)).isEmpty = true
    · rw [if_pos hq]
      exact h
    · rw [if_neg hq]
      exact appendOp_inv _ _ _ h

/-- The float block appends at most one FLOAT_FILTER, only when a truthy
float id exists. -/
theorem genFloats_types (entities : ExtractedEntities) (st : GenState) :
    (genFloats entities st).ops.map (·.type) =
      st.ops.map (·.type) ++
        (if entities.floats.isEmpty then []
         else if (entities.floats.filterMap (fun f =>
             if f.float_id == "" then Option.none else some f.float_id)).isEmpty then []
         else [OperatorType.float_filter]) := by
  unfold genFloats
  dsimp only
  by_cases hp : entities.floats.isEmpty = true
  · rw [if_pos hp, if_pos hp, List.append_nil]
  · rw [if_neg hp, if_neg hp]
    by_cases hq : (entities.floats.filterMap (fun f =>
        if f.float_id == "" then Option.none else some f.float_id)).isEmpty = true
    · rw [if_pos hq, if_pos hq, List.append_nil]
    · rw [if_neg hq, if_neg hq]
      exact appendOp_types _ _ _

/-- The QC block preserves the chain invariant. -/
theorem genQuality_inv (entities : ExtractedEntities) (st : GenState)
    (h : genInv st) : genInv (genQuality entities st) := by
  unfold genQuality
  dsimp only
  by_cases hp : entities.quality.isEmpty = true
  · rw [if_pos hp]
    exact h
  · rw [if_neg hp]
    by_cases hq : (!(entities.quality.foldl (fun acc q => acc ++ q.qc_flags)
        ([] : List Int)).isEmpty ||
        (entities.quality.foldl (fun acc q =>
          match q.data_mode with
          | some d => some d
          | Option.none => acc) Option.none).isSome) = true
    · rw [if_pos hq]
      exact appendOp_inv _ _ _ h
    · rw [if_neg hq]
      exact h

/-- The QC block appends at most one QC_FILTER, only when a flag or data
mode was extracted. -/
theorem genQuality_types (entities : ExtractedEntities) (st : GenState) :
    (genQuality entities st).ops.map (·.type) =
      st.ops.map (·.type) ++
        (if entities.quality.isEmpty then []
         else if (!(entities.quality.foldl (fun acc q => acc ++ q.qc_flags)
             ([] : List Int)).isEmpty ||
             (entities.quality.foldl (fun acc q =>
               match q.data_mode with
               | some d => some d
               | Option.none => acc) Option.none).isSome) then
           [OperatorType.qc_filter]
         else []) := by
  unfold genQuality
  dsimp only
  by_cases hp : entities.quality.isEmpty = true
  · rw [if_pos hp, if_pos hp, List.append_nil]
  · rw [if_neg hp, if_neg hp]
    by_cases hq : (!(entities.quality.foldl (fun acc q => acc ++ q.qc_flags)
        ([] : List Int)).isEmpty ||
        (entities.quality.foldl (fun acc q =>
          match q.data_mode with
          | some d => some d
          | Option.none => acc) Option.none).isSome) = true
    · rw [if_pos hq, if_pos hq]
      exact appendOp_types _ _ _
    · rw [if_neg hq, if_neg hq, List.append_nil]

/-- The compute block preserves the chain invariant. -/
theorem genComputes_inv (entities : ExtractedEntities) (intent : String)
    (st : GenState) (h : genInv st) : genInv (genComputes entities intent st) := by
  unfold genComputes
  by_cases h1 : (intent == "gradient_analysis") = true
  · rw [if_pos h1]
    exact appendOp_inv _ _ _ h
  rw [if_neg h1]
  by_cases h2 : (intent == "mixed_layer_analysis") = true
  · rw [if_pos h2]
    exact appendOp_inv _ _ _ h
  rw [if_neg h2]
  by_cases h3 : (intent == "anomaly_detection") = true
  · rw [if_pos h3]
    exact appendOp_inv _ _ _ h
  rw [if_neg h3]
  by_cases h4 : (intent == "comparison") = true
  · rw [if_pos h4]
    exact appendOp_inv _ _ _ h
  · rw [if_neg h4]
    exact h

/-- The compute block appends at most one compute operator, selected by
intent. -/
theorem genComputes_types (entities : ExtractedEntities) (intent : String)
    (st : GenState) :
    (genComputes entities intent st).ops.map (·.type) =
      st.ops.map (·.type) ++
        (if intent == "gradient_analysis" then [OperatorType.compute_gradient]
         else if intent == "mixed_layer_analysis" then [OperatorType.compute_mld]
         else if intent == "anomaly_detection" then [OperatorType.compute_anomaly]
         else if intent == "comparison" then [OperatorType.compute_stats]
         else []) := by
  unfold genComputes
  by_cases h1 : (intent == "gradient_analysis") = true
  · rw [if_pos h1, if_pos h1]
    exact appendOp_types _ _ _
  rw [if_neg h1, if_neg h1]
  by_cases h2 : (intent == "mixed_layer_analysis") = true
  · rw [if_pos h2, if_pos h2]
    exact appendOp_types _ _ _
  rw [if_neg h2, if_neg h2]
  by_cases h3 : (intent == "anomaly_detection") = true
  · rw [if_pos h3, if_pos h3]
    exact appendOp_types _ _ _
  rw [if_neg h3, if_neg h3]
  by_cases h4 : (intent == "comparison") = true
  · rw [if_pos h4, if_pos h4]
    exact appendOp_types _ _ _
  · rw [if_neg h4, if_neg h4, List.append_nil]

/-- The terminal block preserves the chain invariant. -/
theorem genViz_inv (entities : ExtractedEntities) (intent : String)
    (st : GenState) (h : genInv st) : genInv (genViz entities intent st) :=
  appendOp_inv _ _ _ h

/-- The terminal block appends exactly one VISUALIZE operator. -/
theorem genViz_types (entities : ExtractedEntities) (intent : String)
    (st : GenState) :
    (genViz entities intent st).ops.map (·.type) =
      st.ops.map (·.type) ++ [OperatorType.visualize] := by
  unfold genViz
  exact appendOp_types _ _ _

/-- `getLast?` commutes with `map`. -/
theorem mapGetLast {α β : Type} (f : α → β) (l : List α) :
    (l.map f).getLast? = l.getLast?.map f := by
  induction l with
  | nil => rfl
  | cons a rest ih =>
    cases rest with
    | nil => rfl
    | cons b rest2 =>
      simp only [List.map_cons, List.getLast?_cons_cons] at ih ⊢
      exact ih

/-- Membership in a conditional list distributes over the branches. -/
theorem mem_ite_ops {c : Prop} [Decidable c] {a : OperatorType}
    {l1 l2 : List OperatorType} (h : a ∈ (if c then l1 else l2)) :
    a ∈ l1 ∨ a ∈ l2 := by
  split at h
  · exact Or.inl h
  · exact Or.inr h

/-- C4 (amended): the generator emits one SPATIAL_FILTER per spatial
entity carrying a bbox and one TEMPORAL_FILTER per temporal entity
carrying both endpoints (not one per non-empty class), then at most one
each of PARAMETER/FLOAT/QC filter under the code's gating, at most one
intent-selected compute operator, and exactly one terminal VISUALIZE;
the returned operators form a non-empty linear chain whose edge list is
exactly the consecutive chain over the returned operator ids. -/
theorem generate_linear_chain (entities : ExtractedEntities) (intent : String) :
    (OperatorGenerator.generate entities intent).1 ≠ [] ∧
    (OperatorGenerator.generate entities intent).1.map (·.type) =
      (entities.spatial.filter (fun sp => sp.bbox.isSome)).map
          (fun _ => OperatorType.spatial_filter) ++
        (entities.temporal.filter (fun t => t.start.isSome && t.stop.isSome)).map
          (fun _ => OperatorType.temporal_filter) ++
        (if entities.parameters.isEmpty then []
         else [OperatorType.parameter_filter]) ++
        (if entities.floats.isEmpty then []
         else if (entities.floats.filterMap (fun f =>
             if f.float_id == "" then Option.none else some f.float_id)).isEmpty then []
         else [OperatorType.float_filter]) ++
        (if entities.quality.isEmpty then []
         else if (!(entities.quality.foldl (fun acc q => acc ++ q.qc_flags)
             ([] : List Int)).isEmpty ||
             (entities.quality.foldl (fun acc q =>
               match q.data_mode with
               | some d => some d
               | Option.none => acc) Option.none).isSome) then
           [OperatorType.qc_filter]
         else []) ++
        (if intent == "gradient_analysis" then [OperatorType.compute_gradient]
         else if intent == "mixed_layer_analysis" then [OperatorType.compute_mld]
         else if intent == "anomaly_detection" then [OperatorType.compute_anomaly]
         else if intent == "comparison" then [OperatorType.compute_stats]
         else []) ++
        [OperatorType.visualize] ∧
    ((OperatorGenerator.generate entities intent).1.map (·.type)).count
        OperatorType.visualize = 1 ∧
    ((OperatorGenerator.generate entities intent).1.getLast?).map (·.type) =
      some OperatorType.visualize ∧
    (OperatorGenerator.generate entities intent).2 =
      chainEdges ((OperatorGenerator.generate entities intent).1.map (·.id)) ∧
    (∀ e ∈ (OperatorGenerator.generate entities intent).2,
      e.from_id ∈ (OperatorGenerator.generate entities intent).1.map (·.id) ∧
      e.to_id ∈ (OperatorGenerator.generate entities intent).1.map (·.id)) := by
  have htypes : (OperatorGenerator.generate entities intent).1.map (·.type) =
      (entities.spatial.filter (fun sp => sp.bbox.isSome)).map
          (fun _ => OperatorType.spatial_filter) ++
        (entities.temporal.filter (fun t => t.start.isSome && t.stop.isSome)).map
          (fun _ => OperatorType.temporal_filter) ++
        (if entities.parameters.isEmpty then []
         else [OperatorType.parameter_filter]) ++
        (if entities.floats.isEmpty then []
         else if (entities.floats.filterMap (fun f =>
             if f.float_id == "" then Option.none else some f.float_id)).isEmpty then []
         else [OperatorType.float_filter]) ++
        (if entities.quality.isEmpty then []
         else if (!(entities.quality.foldl (fun acc q => acc ++ q.qc_flags)
             ([] : List Int)).isEmpty ||
             (entities.quality.foldl (fun acc q =>
               match q.data_mode with
               | some d => some d
               | Option.none => acc) Option.none).isSome) then
           [OperatorType.qc_filter]
         else []) ++
        (if intent == "gradient_analysis" then [OperatorType.compute_gradient]
         else if intent == "mixed_layer_analysis" then [OperatorType.compute_mld]
         else if intent == "anomaly_detection" then [OperatorType.compute_anomaly]
         else if intent == "comparison" then [OperatorType.compute_stats]
         else []) ++
        [OperatorType.visualize] := by
    show (genViz entities intent (genComputes entities intent
      (genQuality entities (genFloats entities (genParams entities
        (genTemporal entities (genSpatial entities
          { ops := [], edges := [], lastId := Option.none,
            counter := 0 }))))))).ops.map (·.type) = _
    rw [genViz_types, genComputes_types, genQuality_types, genFloats_types,
      genParams_types, genTemporal_types, genSpatial_types]
    simp [List.append_assoc]
  have hinv : genInv (genViz entities intent (genComputes entities intent
      (genQuality entities (genFloats entities (genParams entities
        (genTemporal entities (genSpatial entities
          { ops := [], edges := [], lastId := Option.none, counter := 0 }))))))) :=
    genViz_inv _ _ _ (genComputes_inv _ _ _ (genQuality_inv _ _ (genFloats_inv _ _
      (genParams_inv _ _ (genTemporal_inv _ _ (genSpatial_inv _ _ ⟨rfl, rfl⟩))))))
  have hedges : (OperatorGenerator.generate entities intent).2 =
      chainEdges ((OperatorGenerator.generate entities intent).1.map (·.id)) := hinv.1
  have hne : (OperatorGenerator.generate entities intent).1 ≠ [] := by
    intro h0
    have hlen := congrArg List.length htypes
    rw [h0] at hlen
    simp only [List.map_nil, List.length_nil, List.length_append,
      List.length_cons] at hlen
    omega
  have hnotviz : OperatorType.visualize ∉
      ((entities.spatial.filter (fun sp => sp.bbox.isSome)).map
          (fun _ => OperatorType.spatial_filter) ++
        (entities.temporal.filter (fun t => t.start.isSome && t.stop.isSome)).map
          (fun _ => OperatorType.temporal_filter) ++
        (if entities.parameters.isEmpty then []
         else [OperatorType.parameter_filter]) ++
        (if entities.floats.isEmpty then []
         else if (entities.floats.filterMap (fun f =>
             if f.float_id == "" then Option.none else some f.float_id)).isEmpty then []
         else [OperatorType.float_filter]) ++
        (if entities.quality.isEmpty then []
         else if (!(entities.quality.foldl (fun acc q => acc ++ q.qc_flags)
             ([] : List Int)).isEmpty ||
             (entities.quality.foldl (fun acc q =>
               match q.data_mode with
               | some d => some d
               | Option.none => acc) Option.none).isSome) then
           [OperatorType.qc_filter]
         else []) ++
        (if intent == "gradient_analysis" then [OperatorType.compute_gradient]
         else if intent == "mixed_layer_analysis" then [OperatorType.compute_mld]
         else if intent == "anomaly_detection" then [OperatorType.compute_anomaly]
         else if intent == "comparison" then [OperatorType.compute_stats]
         else [])) := by
    intro hmem
    simp only [List.mem_append] at hmem
    rcases hmem with ((((h | h) | h) | h) | h) | h
    · rcases List.mem_map.1 h with ⟨x, _, hx⟩
      cases hx
    · rcases List.mem_map.1 h with ⟨x, _, hx⟩
      cases hx
    · rcases mem_ite_ops h with h | h
      · simp at h
      · simp at h
    · rcases mem_ite_ops h with h | h
      · simp at h
      rcases mem_ite_ops h with h | h
      · simp at h
      · simp at h
    · rcases mem_ite_ops h with h | h
      · simp at h
      rcases mem_ite_ops h with h | h
      · simp at h
      · simp at h
    · rcases mem_ite_ops h with h | h
      · simp at h
      rcases mem_ite_ops h with h | h
      · simp at h
      rcases mem_ite_ops h with h | h
      · simp at h
      rcases mem_ite_ops h with h | h
      · simp at h
      · simp at h
  refine ⟨hne, htypes, ?_, ?_, hedges, ?_⟩
  · rw [htypes, List.count_append, List.count_eq_zero.mpr hnotviz]
    simp
  · rw [← mapGetLast, htypes]
    simp
  · intro e he
    rw [hedges] at he
    exact chainEdges_mem _ _ he

/-- Two spatial entities, both with configured bboxes (C4 input). -/
def cexEntities : ExtractedEntities :=
  { spatial :=
      [{ name := "Arabian Sea", type := "region", bbox := some (50, 8, 77, 28),
         center := some (63.5, 18), confidence := 0.95 },
       { name := "Red Sea", type := "region", bbox := some (32, 12, 44, 30),
         center := some (38, 21), confidence := 0.95 }],
    temporal := [], parameters := [], floats := [], quality := [], depth := [] }

/-- C4 counterexample: with two spatial entities each carrying a bbox,
the generator emits TWO spatial filter operators (one per entity), not
"exactly one filter operator per non-empty entity class" as claimed. -/
theorem generate_two_spatial_filters :
    cexEntities.spatial ≠ [] ∧
    ((OperatorGenerator.generate cexEntities "general_query").1.filter
        (fun op => op.type == OperatorType.spatial_filter)).length = 2 :=
  ⟨by simp [cexEntities], rfl⟩

/-- Inversion for one successful cost estimate: the returned operator is
the input with only `estimated_cost` overwritten. -/
theorem estimate_one_shape (hash : String → String) (cache : String → Option PyVal)
    (op : Operator) (est : CostEstimate) (op2 : Operator)
    (h : QueryPlanner.estimate_one hash cache op = .ok (est, op2)) :
    op2 = { op with estimated_cost := est.adjusted_cost } := by
  unfold QueryPlanner.estimate_one at h
  rcases hsel : QueryPlanner.selAdjusted op with e | a <;>
    rw [hsel] at h <;>
    simp only [Except.instMonad, Except.bind, pure, Except.pure, Except.ok.injEq,
      Except.error.injEq] at h
  · cases h
  · obtain ⟨h1, h2⟩ := Prod.mk.injEq .. ▸ h
    rw [← h2, ← congrArg CostEstimate.adjusted_cost h1]

/-- `_estimate_costs` only ever overwrites `estimated_cost`: pointwise,
every other operator field survives, and when no exception was raised the
output operators are exactly the per-operator estimates. -/
theorem estimate_costs_frame (hash : String → String) (cache : String → Option PyVal)
    (ops : List Operator) :
    List.Forall₂ (fun op op2 => op2.id = op.id ∧ op2.type = op.type ∧
      op2.params = op.params ∧ op2.target_server = op.target_server)
      ops (QueryPlanner.estimate_costs hash cache ops).2.1 ∧
    ((QueryPlanner.estimate_costs hash cache ops).1 = Option.none →
      List.Forall₂ (fun op op2 => ∃ est,
        QueryPlanner.estimate_one hash cache op = .ok (est, op2))
        ops (QueryPlanner.estimate_costs hash cache ops).2.1) := by
  induction ops with
  | nil => exact ⟨List.Forall₂.nil, fun _ => List.Forall₂.nil⟩
  | cons op rest ih =>
    rcases hone : QueryPlanner.estimate_one hash cache op with e | ⟨est, opU⟩
    · constructor
      · simp only [QueryPlanner.estimate_costs, hone]
        refine List.Forall₂.cons ⟨rfl, rfl, rfl, rfl⟩ ?_
        rw [List.forall₂_same]
        exact fun a _ => ⟨rfl, rfl, rfl, rfl⟩
      · simp only [QueryPlanner.estimate_costs, hone]
        intro hnone
        cases hnone
    · constructor
      · simp only [QueryPlanner.estimate_costs, hone]
        have hshape := estimate_one_shape hash cache op est opU hone
        subst hshape
        exact List.Forall₂.cons ⟨rfl, rfl, rfl, rfl⟩ ih.1
      · simp only [QueryPlanner.estimate_costs, hone]
        intro hnone
        exact List.Forall₂.cons ⟨est, hone⟩ (ih.2 hnone)

/-- C10: `QueryPlanner.plan` with `deadline_ms = None` only mutates the
input DAG by overwriting operator `estimated_cost` fields — the edge
list is unchanged, every operator keeps its id, type, params and target
server (also when estimation raises mid-way), and on success each
operator's cost is exactly its adjusted estimate. -/
theorem plan_no_deadline_frame (hash : String → String)
    (cache : String → Option PyVal) (dag : SemanticOperatorDAG) :
    (QueryPlanner.plan hash cache dag Option.none).2.edges = dag.edges ∧
    List.Forall₂ (fun op op2 => op2.id = op.id ∧ op2.type = op.type ∧
      op2.params = op.params ∧ op2.target_server = op.target_server)
      dag.operators (QueryPlanner.plan hash cache dag Option.none).2.operators ∧
    (∀ p, (QueryPlanner.plan hash cache dag Option.none).1 = .ok p →
      List.Forall₂ (fun op op2 => ∃ est,
        QueryPlanner.estimate_one hash cache op = .ok (est, op2))
        dag.operators (QueryPlanner.plan hash cache dag Option.none).2.operators) := by
  have hframe := estimate_costs_frame hash cache dag.operators
  rcases he : QueryPlanner.estimate_costs hash cache dag.operators with ⟨err, opsU, ests⟩
  rw [he] at hframe
  cases err with
  | some e =>
    simp only [QueryPlanner.plan, he]
    exact ⟨trivial, hframe.1, fun p hp => by cases hp⟩
  | none =>
    rcases ht : ({ dag with operators := opsU } : SemanticOperatorDAG).topological_sort
      with e | order
    · simp only [QueryPlanner.plan, he, ht]
      exact ⟨trivial, hframe.1, fun p hp => by cases hp⟩
    · simp only [QueryPlanner.plan, he, ht, Bool.false_eq_true, reduceIte]
      exact ⟨trivial, hframe.1, fun p _ => hframe.2 rfl⟩

/-- An always-miss cache oracle (witnesses). -/
def cacheNone : String → Option PyVal := fun _ => Option.none

/-- A one-operator DAG (witness input for the frame theorem). -/
def cexDag10 : SemanticOperatorDAG :=
  { operators := [{ id := "a", type := .parameter_filter, params := [],
                    estimated_cost := 0, target_server := "structured" }],
    edges := [] }

/-- Witness for C10: planning the one-operator DAG with no deadline
succeeds, keeps the edge list and preserves every non-cost field. -/
theorem plan_no_deadline_frame_witness :
    (∃ p, (QueryPlanner.plan hashId cacheNone cexDag10 Option.none).1 = .ok p) ∧
    (QueryPlanner.plan hashId cacheNone cexDag10 Option.none).2.edges = cexDag10.edges ∧
    List.Forall₂ (fun op op2 => op2.id = op.id ∧ op2.type = op.type ∧
      op2.params = op.params ∧ op2.target_server = op.target_server)
      cexDag10.operators
      (QueryPlanner.plan hashId cacheNone cexDag10 Option.none).2.operators := by
  refine ⟨?_, (plan_no_deadline_frame hashId cacheNone cexDag10).1,
    (plan_no_deadline_frame hashId cacheNone cexDag10).2.1⟩
  simp only [QueryPlanner.plan, QueryPlanner.estimate_costs, QueryPlanner.estimate_one,
    QueryPlanner.selAdjusted, QueryPlanner.base_costs, cexDag10, cacheNone,
    SemanticOperatorDAG.topological_sort, kahnAux, kahnReady,
    Except.instMonad, Except.bind, pure, Except.pure]
  exact ⟨_, rfl⟩

/-- Soundness of the fuelled Kahn loop: a successful run emits a
duplicate-free order covering the accumulator, drawn from the pending
ids, in which every edge's source strictly precedes its target. -/
theorem kahnAux_sound (edges : List Edge) :
    ∀ (fuel : Nat) (remaining acc order : List String),
    kahnAux edges fuel remaining acc = .ok order →
    acc.Nodup → remaining.Nodup → (∀ x ∈ remaining, x ∉ acc) →
    (∀ e ∈ edges, e.from_id ∈ acc ∨ e.from_id ∈ remaining) →
    (∀ e ∈ edges, e.to_id ∈ acc ∨ e.to_id ∈ remaining) →
    (∀ e ∈ edges, e.to_id ∈ acc →
      ∃ i j, i < j ∧ acc.get? i = some e.from_id ∧ acc.get? j = some e.to_id) →
    (∀ x ∈ acc, x ∈ order) ∧
    (∀ x ∈ order, x ∈ acc ∨ x ∈ remaining) ∧
    order.Nodup ∧
    (∀ e ∈ edges, ∃ i j, i < j ∧
      order.get? i = some e.from_id ∧ order.get? j = some e.to_id) := by
  intro fuel
  induction fuel with
  | zero =>
    intro remaining acc order h hnd hndr hdisj hfrom hto hpos
    unfold kahnAux at h
    by_cases hre : remaining.isEmpty
    · rw [if_pos hre] at h
      injection h with h
      subst h
      have hremnil : remaining = [] := List.isEmpty_iff.1 hre
      subst hremnil
      refine ⟨fun x hx => hx, fun x hx => Or.inl hx, hnd, fun e he => ?_⟩
      rcases hto e he with hta | hta
      · exact hpos e he hta
      · cases hta
    · rw [if_neg hre] at h
      cases h
  | succ fuel ih =>
    intro remaining acc order h hnd hndr hdisj hfrom hto hpos
    unfold kahnAux at h
    by_cases hre : remaining.isEmpty
    · rw [if_pos hre] at h
      injection h with h
      subst h
      have hremnil : remaining = [] := List.isEmpty_iff.1 hre
      subst hremnil
      refine ⟨fun x hx => hx, fun x hx => Or.inl hx, hnd, fun e he => ?_⟩
      rcases hto e he with hta | hta
      · exact hpos e he hta
      · cases hta
    · rw [if_neg hre] at h
      rcases hready : kahnReady edges remaining with _ | r
      · rw [hready] at h
        cases h
      · rw [hready] at h
        -- properties of the ready node
        have hrmem : r ∈ remaining := List.mem_of_find?_eq_some hready
        have hrpred := List.find?_some hready
        have hrnotacc : r ∉ acc := hdisj r hrmem
        have hready2 : ∀ e ∈ edges, e.to_id = r → e.from_id ∉ remaining := by
          intro e he hte
          have := List.all_eq_true.1 hrpred e he
          simp only [Bool.or_eq_true, Bool.not_eq_eq_eq_not, Bool.not_true,
            beq_eq_false_iff_ne, ne_eq, Bool.not_eq_true] at this
          rcases this with h1 | h1
          · exact absurd hte h1
          · simpa using h1
        -- invariants for the recursive call
        have hnd2 : (acc ++ [r]).Nodup := by
          rw [List.nodup_append]
          exact ⟨hnd, List.nodup_singleton r, by simpa using hrnotacc⟩
        have hndr2 : (remaining.erase r).Nodup := hndr.erase r
        have hdisj2 : ∀ x ∈ remaining.erase r, x ∉ acc ++ [r] := by
          intro x hx
          have hxr := (List.Nodup.mem_erase_iff hndr).1 hx
          simp only [List.mem_append, List.mem_singleton]
          rintro (hxa | hxa)
          · exact hdisj x hxr.2 hxa
          · exact hxr.1 hxa
        have hfrom2 : ∀ e ∈ edges, e.from_id ∈ acc ++ [r] ∨
            e.from_id ∈ remaining.erase r := by
          intro e he
          rcases hfrom e he with h1 | h1
          · exact Or.inl (List.mem_append_left _ h1)
          · by_cases hxr : e.from_id = r
            · exact Or.inl (List.mem_append_right _ (by simp [hxr]))
            · exact Or.inr ((List.Nodup.mem_erase_iff hndr).2 ⟨hxr, h1⟩)
        have hto2 : ∀ e ∈ edges, e.to_id ∈ acc ++ [r] ∨
            e.to_id ∈ remaining.erase r := by
          intro e he
          rcases hto e he with h1 | h1
          · exact Or.inl (List.mem_append_left _ h1)
          · by_cases hxr : e.to_id = r
            · exact Or.inl (List.mem_append_right _ (by simp [hxr]))
            · exact Or.inr ((List.Nodup.mem_erase_iff hndr).2 ⟨hxr, h1⟩)
        have hpos2 : ∀ e ∈ edges, e.to_id ∈ acc ++ [r] →
            ∃ i j, i < j ∧ (acc ++ [r]).get? i = some e.from_id ∧
              (acc ++ [r]).get? j = some e.to_id := by
          intro e he hta
          rcases List.mem_append.1 hta with hta | hta
          · obtain ⟨i, j, hij, hi, hj⟩ := hpos e he hta
            have hilt : i < acc.length := by
              have := List.get?_eq_some.1 hi
              exact this.1
            have hjlt : j < acc.length := by
              have := List.get?_eq_some.1 hj
              exact this.1
            exact ⟨i, j, hij, by rw [List.get?_append hilt]; exact hi,
              by rw [List.get?_append hjlt]; exact hj⟩
          · have hter : e.to_id = r := by simpa using hta
            have hfnotrem : e.from_id ∉ remaining := hready2 e he hter
            have hfacc : e.from_id ∈ acc := by
              rcases hfrom e he with h1 | h1
              · exact h1
              · exact absurd h1 hfnotrem
            obtain ⟨i, hi⟩ := List.mem_iff_get?.1 hfacc
            have hilt : i < acc.length := (List.get?_eq_some.1 hi).1
            refine ⟨i, acc.length, hilt, by rw [List.get?_append hilt]; exact hi, ?_⟩
            rw [List.get?_concat_length]
            rw [hter]
        have := ih (remaining.erase r) (acc ++ [r]) order h hnd2 hndr2 hdisj2
          hfrom2 hto2 hpos2
        refine ⟨fun x hx => this.1 x (List.mem_append_left _ hx), ?_, this.2.2.1,
          this.2.2.2⟩
        intro x hx
        rcases this.2.1 x hx with h1 | h1
        · rcases List.mem_append.1 h1 with h2 | h2
          · exact Or.inl h2
          · exact Or.inr (by simpa using (by simpa using h2 : x = r) ▸ hrmem)
        · exact Or.inr (List.mem_of_mem_erase h1)

/-- Soundness of the spec-modelled `topological_sort`: under the data
model invariant that operator ids are unique, a successful sort is a
duplicate-free sequence of operator ids in which every dependency edge
goes strictly forward. -/
theorem topological_sort_sound (dag : SemanticOperatorDAG) (order : List String)
    (hids : (dag.operators.map (·.id)).Nodup)
    (h : dag.topological_sort = .ok order) :
    order.Nodup ∧
    (∀ x ∈ order, x ∈ dag.operators.map (·.id)) ∧
    (∀ e ∈ dag.edges, ∃ i j, i < j ∧
      order.get? i = some e.from_id ∧ order.get? j = some e.to_id) := by
  unfold SemanticOperatorDAG.topological_sort at h
  dsimp only at h
  by_cases hok : dag.edges.all (fun e =>
      (dag.operators.map (·.id)).contains e.from_id &&
      (dag.operators.map (·.id)).contains e.to_id) = true
  · rw [if_pos hok] at h
    have hend : ∀ e ∈ dag.edges, e.from_id ∈ dag.operators.map (·.id) ∧
        e.to_id ∈ dag.operators.map (·.id) := by
      intro e he
      have := List.all_eq_true.1 hok e he
      simp only [Bool.and_eq_true] at this
      constructor
      · simpa using this.1
      · simpa using this.2
    have hs := kahnAux_sound dag.edges (dag.operators.map (·.id)).length
      (dag.operators.map (·.id)) [] order h List.nodup_nil hids
      (by intro x _ hx; cases hx)
      (fun e he => Or.inr (hend e he).1)
      (fun e he => Or.inr (hend e he).2)
      (by intro e _ hta; cases hta)
    refine ⟨hs.2.2.1, ?_, hs.2.2.2⟩
    intro x hx
    rcases hs.2.1 x hx with h1 | h1
    · cases h1
    · exact h1
  · rw [if_neg hok] at h
    cases h

/-- The grouping loop partitions positions in order: the concatenation
of all emitted groups is exactly the consecutive position range. -/
theorem ipgAux_join (dag : SemanticOperatorDAG) (order : List String) :
    ∀ (rest : List String) (i : Nat) (completed : List String)
      (groups : List (List Nat)) (current : List Nat),
    (ipgAux dag order rest i completed groups current).join =
      groups.join ++ current ++ List.range' i rest.length := by
  intro rest
  induction rest with
  | nil =>
    intro i completed groups current
    unfold ipgAux
    by_cases hc : current.isEmpty
    · rw [if_pos hc]
      have : current = [] := List.isEmpty_iff.1 hc
      subst this
      simp
    · rw [if_neg hc]
      simp
  | cons opId rest2 ih =>
    intro i completed groups current
    unfold ipgAux
    have hrange : List.range' i (opId :: rest2).length =
        i :: List.range' (i + 1) rest2.length := by
      simp [List.range'_succ]
    by_cases hd : (dag.get_dependencies opId).all (fun d => completed.contains d) = true
    · rw [if_pos hd]
      by_cases hc : current.isEmpty
      · rw [if_pos hc]
        have : current = [] := List.isEmpty_iff.1 hc
        subst this
        rw [ih, hrange]
        simp
      · rw [if_neg hc]
        by_cases hp : canParallel dag order current opId (dag.get_dependencies opId) = true
        · rw [if_pos hp, ih, hrange]
          simp
        · rw [if_neg hp, ih, hrange]
          simp
    · rw [if_neg hd]
      by_cases hc : current.isEmpty
      · rw [if_pos hc]
        have : current = [] := List.isEmpty_iff.1 hc
        subst this
        rw [ih, hrange]
        simp
      · rw [if_neg hc]
        rw [ih, hrange]
        simp

/-- No dependency edge runs between two positions of the order. -/
def noDep (dag : SemanticOperatorDAG) (order : List String) (p q : Nat) : Prop :=
  ∀ u v, order.get? p = some u → order.get? q = some v →
    u ∉ dag.get_dependencies v

/-- No two distinct positions of the group are joined by a dependency
edge in either direction. -/
def groupOK (dag : SemanticOperatorDAG) (order : List String) (g : List Nat) : Prop :=
  ∀ p ∈ g, ∀ q ∈ g, p ≠ q → noDep dag order p q

/-- The grouping loop never places two positions joined by a dependency
edge into the same group: the `can_parallel` check guards every append
to the current group. -/
theorem ipgAux_groupOK (dag : SemanticOperatorDAG) (order : List String) :
    ∀ (rest : List String) (i : Nat) (completed : List String)
      (groups : List (List Nat)) (current : List Nat),
    (∀ g ∈ groups, groupOK dag order g) →
    groupOK dag order current →
    (∀ p ∈ current, p < i) →
    order.drop i = rest →
    ∀ g ∈ ipgAux dag order rest i completed groups current, groupOK dag order g := by
  intro rest
  induction rest with
  | nil =>
    intro i completed groups current hg hcur _ _ g hgmem
    unfold ipgAux at hgmem
    by_cases hc : current.isEmpty
    · rw [if_pos hc] at hgmem
      exact hg g hgmem
    · rw [if_neg hc] at hgmem
      rcases List.mem_append.1 hgmem with h1 | h1
      · exact hg g h1
      · have : g = current := by simpa using h1
        subst this
        exact hcur
  | cons opId rest2 ih =>
    intro i completed groups current hg hcur hbound hdrop g hgmem
    have hgeti : order.get? i = some opId := by
      have h0 : (order.drop i).get? 0 = some opId := by rw [hdrop]; rfl
      rwa [List.get?_drop, Nat.add_zero] at h0
    have hdrop2 : order.drop (i + 1) = rest2 := by
      have : (order.drop i).drop 1 = order.drop (i + 1) := by
        rw [List.drop_drop, Nat.add_comm]
      rw [← this, hdrop]
      rfl
    have hsingle : groupOK dag order [i] := by
      intro p hp q hq hpq
      simp only [List.mem_singleton] at hp hq
      exact absurd (hp.trans hq.symm) hpq
    unfold ipgAux at hgmem
    by_cases hd : (dag.get_dependencies opId).all
        (fun d => completed.contains d) = true
    · rw [if_pos hd] at hgmem
      by_cases hc : current.isEmpty
      · rw [if_pos hc] at hgmem
        exact ih (i + 1) _ groups [i] hg hsingle
          (by intro p hp; simp only [List.mem_singleton] at hp; omega) hdrop2 g hgmem
      · rw [if_neg hc] at hgmem
        by_cases hp : canParallel dag order current opId
            (dag.get_dependencies opId) = true
        · rw [if_pos hp] at hgmem
          have hcur2 : groupOK dag order (current ++ [i]) := by
            intro p hpmem q hqmem hpq
            rcases List.mem_append.1 hpmem with hpc | hpi <;>
              rcases List.mem_append.1 hqmem with hqc | hqi
            · exact hcur p hpc q hqc hpq
            · -- q = i, p in current: p's entry passed the canParallel check
              have hqi : q = i := by simpa using hqi
              subst hqi
              intro u v hu hv
              have hv2 : v = opId := by
                rw [hgeti] at hv
                injection hv with h
                exact h.symm
              have hall := List.all_eq_true.1 hp p hpc
              rw [hu] at hall
              simp only [Bool.and_eq_true, Bool.not_eq_eq_eq_not, Bool.not_true,
                Bool.not_eq_true] at hall
              intro hmem
              rw [hv2] at hmem
              have hc1 : (dag.get_dependencies opId).contains u = true := by
                simpa using hmem
              rw [hc1] at hall
              simp at hall
            · -- p = i, q in current
              have hpi : p = i := by simpa using hpi
              subst hpi
              intro u v hu hv
              have hu2 : u = opId := by
                rw [hgeti] at hu
                injection hu with h
                exact h.symm
              have hall := List.all_eq_true.1 hp q hqc
              rw [hv] at hall
              simp only [Bool.and_eq_true, Bool.not_eq_eq_eq_not, Bool.not_true,
                Bool.not_eq_true] at hall
              intro hmem
              rw [hu2] at hmem
              have hc1 : (dag.get_dependencies v).contains opId = true := by
                simpa using hmem
              rw [hc1] at hall
              simp at hall
            · have hpi : p = i := by simpa using hpi
              have hqi : q = i := by simpa using hqi
              exact absurd (hpi.trans hqi.symm) hpq
          exact ih (i + 1) _ groups (current ++ [i]) hg hcur2
            (by
              intro p hpmem
              rcases List.mem_append.1 hpmem with h1 | h1
              · have := hbound p h1
                omega
              · have : p = i := by simpa using h1
                omega) hdrop2 g hgmem
        · rw [if_neg hp] at hgmem
          exact ih (i + 1) _ (groups ++ [current]) [i]
            (by
              intro g1 hg1
              rcases List.mem_append.1 hg1 with h1 | h1
              · exact hg g1 h1
              · have : g1 = current := by simpa using h1
                subst this
                exact hcur)
            hsingle
            (by intro p hp; simp only [List.mem_singleton] at hp; omega)
            hdrop2 g hgmem
    · rw [if_neg hd] at hgmem
      by_cases hc : current.isEmpty
      · rw [if_pos hc] at hgmem
        exact ih (i + 1) _ groups [i] hg hsingle
          (by intro p hp; simp only [List.mem_singleton] at hp; omega) hdrop2 g hgmem
      · rw [if_neg hc] at hgmem
        exact ih (i + 1) _ (groups ++ [current]) [i]
          (by
            intro g1 hg1
            rcases List.mem_append.1 hg1 with h1 | h1
            · exact hg g1 h1
            · have : g1 = current := by simpa using h1
              subst this
              exact hcur)
          hsingle
          (by intro p hp; simp only [List.mem_singleton] at hp; omega)
          hdrop2 g hgmem

/-- `_identify_parallel_groups` partitions the step indices
`0 .. order.length - 1`, in order. -/
theorem identify_parallel_groups_join (dag : SemanticOperatorDAG) (order : List String) :
    (QueryPlanner.identify_parallel_groups dag order).join = List.range order.length := by
  unfold QueryPlanner.identify_parallel_groups
  rw [ipgAux_join]
  simp [List.range_eq_range']

/-- No group produced by `_identify_parallel_groups` contains both
endpoints of a dependency edge. -/
theorem identify_parallel_groups_ok (dag : SemanticOperatorDAG) (order : List String) :
    ∀ g ∈ QueryPlanner.identify_parallel_groups dag order, groupOK dag order g := by
  unfold QueryPlanner.identify_parallel_groups
  exact ipgAux_groupOK dag order order 0 [] [] []
    (by intro g hg; cases hg)
    (by intro p hp; cases hp)
    (by intro p hp; cases hp)
    (by simp)

/-- For a topologically ordered pair of positions joined by a dependency
edge, both positions are covered by groups and the source's group index
is strictly smaller than the target's. -/
theorem groups_respect_edges (dag : SemanticOperatorDAG) (order : List String)
    (e : Edge) (he : e ∈ dag.edges) (i j : Nat) (hij : i < j)
    (hi : order.get? i = some e.from_id) (hj : order.get? j = some e.to_id) :
    (∃ a ga, (QueryPlanner.identify_parallel_groups dag order).get? a = some ga ∧
      i ∈ ga) ∧
    (∃ b gb, (QueryPlanner.identify_parallel_groups dag order).get? b = some gb ∧
      j ∈ gb) ∧
    (∀ a b ga gb,
      (QueryPlanner.identify_parallel_groups dag order).get? a = some ga → i ∈ ga →
      (QueryPlanner.identify_parallel_groups dag order).get? b = some gb → j ∈ gb →
      a < b) := by
  have hjoin := identify_parallel_groups_join dag order
  have hmemgrp : ∀ k : Nat, order.get? k = some e.from_id ∨
      order.get? k = some e.to_id →
      ∃ a ga, (QueryPlanner.identify_parallel_groups dag order).get? a = some ga ∧
        k ∈ ga := by
    intro k hk
    have hklt : k < order.length := by
      rcases hk with hk | hk <;> exact (List.get?_eq_some.1 hk).1
    have : k ∈ (QueryPlanner.identify_parallel_groups dag order).join := by
      rw [hjoin]
      exact List.mem_range.2 hklt
    obtain ⟨g, hg, hkg⟩ := List.mem_join.1 this
    obtain ⟨a, ha⟩ := List.mem_iff_get?.1 hg
    exact ⟨a, g, ha, hkg⟩
  have hpair : List.Pairwise (fun g1 g2 => ∀ x ∈ g1, ∀ y ∈ g2, x < y)
      (QueryPlanner.identify_parallel_groups dag order) := by
    have hp : List.Pairwise (· < ·)
        (QueryPlanner.identify_parallel_groups dag order).join := by
      rw [hjoin]
      exact List.pairwise_lt_range _
    exact (List.pairwise_join.1 hp).2
  refine ⟨hmemgrp i (Or.inl hi), hmemgrp j (Or.inr hj), ?_⟩
  intro a b ga gb hga hia hgb hjb
  rcases Nat.lt_trichotomy a b with hab | hab | hab
  · exact hab
  · exfalso
    subst hab
    rw [hga] at hgb
    injection hgb with hgb
    subst hgb
    have hok := identify_parallel_groups_ok dag order ga
      (List.get?_mem hga)
    have hdep : e.from_id ∈ dag.get_dependencies e.to_id := by
      unfold SemanticOperatorDAG.get_dependencies
      refine List.mem_map.2 ⟨e, List.mem_filter.2 ⟨he, by simp⟩, rfl⟩
    exact hok i hia j hjb (Nat.ne_of_lt hij) e.from_id e.to_id hi hj hdep
  · exfalso
    have halt : a < (QueryPlanner.identify_parallel_groups dag order).length :=
      (List.get?_eq_some.1 hga).1
    have hblt : b < (QueryPlanner.identify_parallel_groups dag order).length :=
      (List.get?_eq_some.1 hgb).1
    have := List.pairwise_iff_get.1 hpair ⟨b, hblt⟩ ⟨a, halt⟩ hab
    have hlt := this j (by
        have := (List.get?_eq_some.1 hgb).2
        rw [← this] at hjb
        exact hjb)
      i (by
        have := (List.get?_eq_some.1 hga).2
        rw [← this] at hia
        exact hia)
    omega

/-- Step construction of `QueryPlanner.plan`: when every id of the order
names an operator, the step at position `k` wraps the operator named at
position `k` of the order. -/
theorem filterMap_get_step (dagU : SemanticOperatorDAG) (hash : String → String) :
    ∀ (order : List String), (∀ x ∈ order, x ∈ dagU.operators.map (·.id)) →
    ∀ (k : Nat) (x : String), order.get? k = some x →
    ∃ s, (order.filterMap (fun opId =>
        (dagU.get_operator opId).map (QueryPlanner.create_step hash dagU))).get? k =
          some s ∧
      s.operator.id = x := by
  intro order
  induction order with
  | nil =>
    intro _ k x hk
    cases hk
  | cons y rest ih =>
    intro hsub k x hk
    have hy : y ∈ dagU.operators.map (·.id) := hsub y (List.mem_cons_self _ _)
    obtain ⟨op, hopfind, hopid⟩ : ∃ op, dagU.get_operator y = some op ∧ op.id = y := by
      rcases hfind : dagU.get_operator y with _ | op
      · exfalso
        rcases List.mem_map.1 hy with ⟨op0, hmem0, hid0⟩
        have := List.find?_eq_none.1 hfind op0 hmem0
        simp [hid0] at this
      · refine ⟨op, rfl, ?_⟩
        have := List.find?_some hfind
        simpa using this
    cases k with
    | zero =>
      injection hk with hk
      subst hk
      refine ⟨QueryPlanner.create_step hash dagU op, ?_, ?_⟩
      · simp [List.filterMap_cons, hopfind]
      · simpa [QueryPlanner.create_step] using hopid
    | succ k2 =>
      obtain ⟨s, hs, hid⟩ := ih (fun z hz => hsub z (List.mem_cons_of_mem _ hz)) k2 x hk
      refine ⟨s, ?_, hid⟩
      simp only [List.filterMap_cons, hopfind, Option.map_some]
      simpa using hs

/-- Pointwise field preservation implies the id sequence is unchanged. -/
theorem forall2_map_id (ops opsU : List Operator)
    (h : List.Forall₂ (fun op op2 => op2.id = op.id ∧ op2.type = op.type ∧
      op2.params = op.params ∧ op2.target_server = op.target_server) ops opsU) :
    opsU.map (·.id) = ops.map (·.id) := by
  induction h with
  | nil => rfl
  | cons h1 _ ih => simp [ih, h1.1]

/-- C1 (amended): for every plan produced by `QueryPlanner.plan` with
`deadline_ms = None` — so that deadline degradation cannot drop steps —
from a DAG with unique operator ids, and every dependency edge (u, v) of
that DAG, u's step and v's step occupy parallel groups and the group
index of u's step is strictly smaller than that of v's step.  The
unrestricted claim is false: `parallel_groups` is computed before the
deadline optimization, so when degradation drops VISUALIZE steps the
groups still partition the pre-drop positions and an edge's endpoints
can land in one group (see the deadline-150 counterexample below). -/
theorem plan_parallel_groups_respect_deps (hash : String → String)
    (cache : String → Option PyVal) (dag : SemanticOperatorDAG) (p : ExecutionPlan)
    (hids : (dag.operators.map (·.id)).Nodup)
    (hplan : (QueryPlanner.plan hash cache dag Option.none).1 = .ok p)
    (e : Edge) (he : e ∈ dag.edges) :
    ∃ i j su sv, i < j ∧
      p.steps.get? i = some su ∧ su.operator.id = e.from_id ∧
      p.steps.get? j = some sv ∧ sv.operator.id = e.to_id ∧
      (∃ a ga, p.parallel_groups.get? a = some ga ∧ i ∈ ga) ∧
      (∃ b gb, p.parallel_groups.get? b = some gb ∧ j ∈ gb) ∧
      (∀ a b ga gb, p.parallel_groups.get? a = some ga → i ∈ ga →
        p.parallel_groups.get? b = some gb → j ∈ gb → a < b) := by
  have hframe := estimate_costs_frame hash cache dag.operators
  rcases hest : QueryPlanner.estimate_costs hash cache dag.operators
    with ⟨err, opsU, ests⟩
  rw [hest] at hframe
  cases err with
  | some e2 =>
    simp only [QueryPlanner.plan, hest] at hplan
    cases hplan
  | none =>
    rcases ht : ({ dag with operators := opsU } : SemanticOperatorDAG).topological_sort
      with e2 | order
    · simp only [QueryPlanner.plan, hest, ht] at hplan
      cases hplan
    · simp only [QueryPlanner.plan, hest, ht, Bool.false_eq_true, reduceIte] at hplan
      injection hplan with hplan
      subst hplan
      have hidsU : ((({ dag with operators := opsU } :
          SemanticOperatorDAG)).operators.map (·.id)).Nodup := by
        show (opsU.map (·.id)).Nodup
        rw [forall2_map_id _ _ hframe.1]
        exact hids
      have hsound := topological_sort_sound _ order hidsU ht
      obtain ⟨i, j, hij, hi, hj⟩ := hsound.2.2 e he
      obtain ⟨su, hsu, hsuid⟩ :=
        filterMap_get_step { dag with operators := opsU } hash order
          hsound.2.1 i e.from_id hi
      obtain ⟨sv, hsv, hsvid⟩ :=
        filterMap_get_step { dag with operators := opsU } hash order
          hsound.2.1 j e.to_id hj
      have hg := groups_respect_edges { dag with operators := opsU } order e he
        i j hij hi hj
      exact ⟨i, j, su, sv, hij, hsu, hsuid, hsv, hsvid, hg.1, hg.2.1, hg.2.2⟩

/-- A three-operator DAG with edges a -> c and b -> c (witness input). -/
def cexDagT : SemanticOperatorDAG :=
  { operators :=
      [{ id := "a", type := .parameter_filter, params := [],
         estimated_cost := 0, target_server := "structured" },
       { id := "b", type := .parameter_filter, params := [],
         estimated_cost := 0, target_server := "structured" },
       { id := "c", type := .parameter_filter, params := [],
         estimated_cost := 0, target_server := "structured" }],
    edges := [{ from_id := "a", to_id := "c" }, { from_id := "b", to_id := "c" }] }

/-- Witness for C1: planning the diamond-input DAG `a -> c <- b`
succeeds and the edge (a, c) lands in strictly ordered groups. -/
theorem plan_parallel_groups_respect_deps_witness :
    (cexDagT.operators.map (·.id)).Nodup ∧
    ({ from_id := "a", to_id := "c" } : Edge) ∈ cexDagT.edges ∧
    ∃ p, (QueryPlanner.plan hashId cacheNone cexDagT Option.none).1 = .ok p ∧
      ∃ i j su sv, i < j ∧
        p.steps.get? i = some su ∧ su.operator.id = "a" ∧
        p.steps.get? j = some sv ∧ sv.operator.id = "c" ∧
        (∃ a ga, p.parallel_groups.get? a = some ga ∧ i ∈ ga) ∧
        (∃ b gb, p.parallel_groups.get? b = some gb ∧ j ∈ gb) ∧
        (∀ a b ga gb, p.parallel_groups.get? a = some ga → i ∈ ga →
          p.parallel_groups.get? b = some gb → j ∈ gb → a < b) := by
  refine ⟨by decide, by decide, ?_⟩
  have hok : ∃ p, (QueryPlanner.plan hashId cacheNone cexDagT Option.none).1 = .ok p := by
    simp only [QueryPlanner.plan, QueryPlanner.estimate_costs, QueryPlanner.estimate_one,
      QueryPlanner.selAdjusted, QueryPlanner.base_costs, cexDagT, cacheNone,
      SemanticOperatorDAG.topological_sort, kahnAux, kahnReady,
      Except.instMonad, Except.bind, pure, Except.pure]
    exact ⟨_, rfl⟩
  obtain ⟨p, hp⟩ := hok
  exact ⟨p, hp, plan_parallel_groups_respect_deps hashId cacheNone cexDagT p
    (by decide) hp { from_id := "a", to_id := "c" } (by decide)⟩

/-- C1 counterexample input: a DAG whose topological order is
[VISUALIZE, A, B] with the single dependency edge A -> B; the base costs
(250 + 20 + 20 = 290) make a deadline of 150 trigger degradation and
290 > 1.5 x 150 makes phase 1 drop the VISUALIZE step. -/
def cexDagC1 : SemanticOperatorDAG :=
  { operators :=
      [{ id := "v", type := .visualize, params := [],
         estimated_cost := 0, target_server := "visualization" },
       { id := "a", type := .parameter_filter, params := [],
         estimated_cost := 0, target_server := "structured" },
       { id := "b", type := .parameter_filter, params := [],
         estimated_cost := 0, target_server := "structured" }],
    edges := [{ from_id := "a", to_id := "b" }] }

/-- `cexDagC1.operators` after the in-place cost-estimation overwrites
(VISUALIZE 250, the two PARAMETER_FILTERs 20 each). -/
def cexOpsC1U : List Operator :=
  [{ id := "v", type := .visualize, params := [],
     estimated_cost := 250, target_server := "visualization" },
   { id := "a", type := .parameter_filter, params := [],
     estimated_cost := 20, target_server := "structured" },
   { id := "b", type := .parameter_filter, params := [],
     estimated_cost := 20, target_server := "structured" }]

/-- C1 counterexample: planning `cexDagC1` with deadline 150 drops the
VISUALIZE step — the returned steps are [A, B] — yet `parallel_groups`
still partitions the pre-drop positions as [[0, 1], [2]], so both
endpoints of the dependency edge A -> B (step positions 0 and 1) sit in
group 0 and no strictly ordered pair of groups separates them: the
claimed group ordering fails as soon as deadline degradation removes
steps, and the trailing group [2] indexes past the two-step list. -/
theorem plan_groups_stale_after_drop :
    ((QueryPlanner.plan hashId cacheNone cexDagC1 (some 150)).1.map
        (fun p => (p.steps.map (fun s => s.operator.id), p.parallel_groups))) =
      Except.ok (["a", "b"], [[0, 1], [2]]) ∧
    ({ from_id := "a", to_id := "b" } : Edge) ∈ cexDagC1.edges ∧
    ¬ (∃ gi gj : Nat, gi < gj ∧
        (∃ g, ([[0, 1], [2]] : List (List Nat)).get? gi = some g ∧ 0 ∈ g) ∧
        (∃ g, ([[0, 1], [2]] : List (List Nat)).get? gj = some g ∧ 1 ∈ g)) := by
  have hest : QueryPlanner.estimate_costs hashId cacheNone cexDagC1.operators =
      (Option.none, cexOpsC1U,
       [("v", { base_cost := 250, adjusted_cost := 250, cache_available := false,
                historical_cost := Option.none }),
        ("a", { base_cost := 20, adjusted_cost := 20, cache_available := false,
                historical_cost := Option.none }),
        ("b", { base_cost := 20, adjusted_cost := 20, cache_available := false,
                historical_cost := Option.none })]) := rfl
  have htopo : ({ cexDagC1 with operators := cexOpsC1U } : SemanticOperatorDAG).topological_sort =
      .ok ["v", "a", "b"] := rfl
  have hgroups : QueryPlanner.identify_parallel_groups
      ({ cexDagC1 with operators := cexOpsC1U } : SemanticOperatorDAG) ["v", "a", "b"] =
      [[0, 1], [2]] := rfl
  have hfm : (["v", "a", "b"].filterMap (fun opId =>
      (({ cexDagC1 with operators := cexOpsC1U } : SemanticOperatorDAG).get_operator opId).map
        (QueryPlanner.create_step hashId
          ({ cexDagC1 with operators := cexOpsC1U } : SemanticOperatorDAG)))) =
      (cexOpsC1U.map (QueryPlanner.create_step hashId
        ({ cexDagC1 with operators := cexOpsC1U } : SemanticOperatorDAG))) := rfl
  refine ⟨?_, by simp [cexDagC1], ?_⟩
  have htot : totalCost (List.map
      (QueryPlanner.create_step hashId ({ cexDagC1 with operators := cexOpsC1U } : SemanticOperatorDAG))
      cexOpsC1U) = 290 := by
    norm_num [totalCost, QueryPlanner.create_step, cexOpsC1U]
  have htot2 : totalCost (List.map
      (QueryPlanner.create_step hashId ({ cexDagC1 with operators := cexOpsC1U } : SemanticOperatorDAG))
      (cexOpsC1U.drop 1)) = 40 := by
    norm_num [totalCost, QueryPlanner.create_step, cexOpsC1U]
  have hs1 : QueryPlanner.strategy1 150 (List.map
      (QueryPlanner.create_step hashId ({ cexDagC1 with operators := cexOpsC1U } : SemanticOperatorDAG))
      cexOpsC1U) = List.map
      (QueryPlanner.create_step hashId ({ cexDagC1 with operators := cexOpsC1U } : SemanticOperatorDAG))
      (cexOpsC1U.drop 1) := by
    rw [QueryPlanner.strategy1, if_pos (by rw [htot]; norm_num)]
    rfl
  have hopt : QueryPlanner.optimize_for_deadline (List.map
      (QueryPlanner.create_step hashId ({ cexDagC1 with operators := cexOpsC1U } : SemanticOperatorDAG))
      cexOpsC1U) 150 = List.map
      (QueryPlanner.create_step hashId ({ cexDagC1 with operators := cexOpsC1U } : SemanticOperatorDAG))
      (cexOpsC1U.drop 1) := by
    rw [QueryPlanner.optimize_for_deadline, if_neg (by rw [htot]; norm_num), hs1]
    rw [show QueryPlanner.strategy2 (List.map
        (QueryPlanner.create_step hashId ({ cexDagC1 with operators := cexOpsC1U } : SemanticOperatorDAG))
        (cexOpsC1U.drop 1)) = List.map
        (QueryPlanner.create_step hashId ({ cexDagC1 with operators := cexOpsC1U } : SemanticOperatorDAG))
        (cexOpsC1U.drop 1) from rfl]
    rw [QueryPlanner.strategy3, htot2, if_neg (by norm_num)]
  · simp only [QueryPlanner.plan, hest, htopo, hgroups, hfm, htot]
    have hcond : (((150 : ℚ) != 0) && decide ((290 : ℚ) > 150)) = true := by norm_num
    simp only [hcond, if_pos, hopt]
    rfl
  · rintro ⟨gi, gj, hij, ⟨g1, hg1, h01⟩, ⟨g2, hg2, h12⟩⟩
    match gi, hg1 with
    | 0, _ =>
      match gj, hg2 with
      | 0, _ => omega
      | 1, hg2 =>
        injection hg2 with hg2
        subst hg2
        simp at h12
      | n + 2, hg2 => simp at hg2
    | 1, hg1 =>
      injection hg1 with hg1
      subst hg1
      simp at h01
    | n + 2, hg1 => simp at hg1
